import Mathlib

/-!
Verification of the springpython WebSphere MQ JMS bridge
(src/springpython/jms/factory.py): the MQRFH2 header codec
(MQRFH2JMS), the JMS message / MQMD descriptor mapping
(WebSphereMQConnectionFactory._build_md / _build_text_message / send),
destination normalization, queue caches and the connect/destroy
lifecycle.

Python 2 byte strings are modelled as lists of characters (`Str`);
every character of interest is a byte.  Machine integers are `Nat` /
`Int` with explicit wrap-around where it matters.  Fallible Python code
(raising exceptions) returns `Option` / `Except`.  Functions that in
the source call into the external transport library (pymqi / CMQC) or
the operating system (time, mktime) take the externally supplied values
as explicit arguments.
-/

namespace SpringJms

/-- Python 2 byte string (`str`): a list of characters, one per byte. -/
abbrev Str := List Char

/-- Characters removed by Python `str.strip()`. -/
def isPySpace (c : Char) : Bool :=
  c = ' ' || c = '\t' || c = '\n' || c = '\x0d' || c = '\x0b' || c = '\x0c'

/-- Python `str.strip()`: remove leading and trailing whitespace. -/
def pyStrip (s : Str) : Str :=
  ((s.dropWhile isPySpace).reverse.dropWhile isPySpace).reverse

/-- `struct.pack("!l", n)`: 4 bytes, big endian.  `struct` raises for
values outside the signed 32-bit range; all lengths the encoder packs
are small non-negative numbers, so we model the in-range case and
theorems carry the bound explicitly where it matters. -/
def pack4 (n : Nat) : Str :=
  [Char.ofNat (n / 16777216 % 256), Char.ofNat (n / 65536 % 256),
   Char.ofNat (n / 256 % 256), Char.ofNat (n % 256)]

/-- `struct.unpack("!l", s)`: reads exactly 4 bytes, big endian, signed
32-bit result; any other length raises (`none`). -/
def unpack4 (s : Str) : Option Int :=
  match s with
  | [a, b, c, d] =>
    let u : Nat :=
      (a.toNat * 16777216 + b.toNat * 65536 + c.toNat * 256 + d.toNat) % 4294967296
    some (if u < 2147483648 then (u : Int) else (u : Int) - 4294967296)
  | _ => none

theorem toNat_ofNat_of_lt {n : Nat} (h : n < 256) : (Char.ofNat n).toNat = n := by
  have hv : n.isValidChar := Or.inl (by omega)
  simp [Char.ofNat, hv, Char.ofNatAux, Char.toNat]
  rfl

/-- Packing then unpacking a non-negative 31-bit value is the identity. -/
theorem unpack4_pack4 {n : Nat} (h : n < 2147483648) :
    unpack4 (pack4 n) = some (n : Int) := by
  unfold pack4 unpack4
  dsimp only
  rw [toNat_ofNat_of_lt (by omega), toNat_ofNat_of_lt (by omega),
      toNat_ofNat_of_lt (by omega), toNat_ofNat_of_lt (by omega)]
  have h1 : n / 16777216 % 256 = n / 16777216 := Nat.mod_eq_of_lt (by omega)
  have h2 : n / 65536 % 256 = n % 16777216 / 65536 := by
    conv_rhs => rw [show (16777216 : Nat) = 65536 * 256 from rfl,
      Nat.mod_mul_right_div_self]
  have h3 : n / 256 % 256 = n % 65536 / 256 := by
    conv_rhs => rw [show (65536 : Nat) = 256 * 256 from rfl,
      Nat.mod_mul_right_div_self]
  rw [h1, h2, h3]
  have he : (n / 16777216 * 16777216 + n % 16777216 / 65536 * 65536 +
      n % 65536 / 256 * 256 + n % 256) % 4294967296 = n := by omega
  rw [he, if_pos h]

/-- Length of the packed length field. -/
theorem pack4_length (n : Nat) : (pack4 n).length = 4 := rfl

/-- Decimal digit character, `unicode(n)` style: `0` to `9`. -/
def digitChar (d : Nat) : Char := Char.ofNat (48 + d)

/-- Fueled decimal printer for naturals (most significant digit first). -/
def natDecAux : Nat → Nat → Str
  | 0, n => [digitChar (n % 10)]
  | fuel + 1, n =>
    if n < 10 then [digitChar n]
    else natDecAux fuel (n / 10) ++ [digitChar (n % 10)]

/-- `unicode(n)` for a non-negative integer: its decimal representation. -/
def natDec (n : Nat) : Str := natDecAux n n

/-- `unicode(i)` for a Python integer. -/
def intDec (i : Int) : Str :=
  if i < 0 then '-' :: natDec i.natAbs else natDec i.toNat

/-- Is the character an ASCII decimal digit? -/
def isDig (c : Char) : Bool := 48 ≤ c.toNat && c.toNat ≤ 57

def strToNatCore (s : Str) (acc : Nat) : Nat :=
  s.foldl (fun a c => 10 * a + (c.toNat - 48)) acc

/-- Python `long(s)` on a string of decimal digits; anything else raises. -/
def strToNat (s : Str) : Option Nat :=
  if s ≠ [] ∧ s.all isDig then some (strToNatCore s 0) else none

/-- Python `long(s)` allowing one leading minus sign. -/
def strToInt (s : Str) : Option Int :=
  match s with
  | [] => none
  | c :: rest =>
    if c = '-' then (strToNat rest).map (fun n => -(n : Int))
    else (strToNat (c :: rest)).map (fun n => (n : Int))

theorem natDecAux_irrel (f : Nat) :
    ∀ g n, n ≤ f → n ≤ g → natDecAux f n = natDecAux g n := by
  induction f with
  | zero =>
    intro g n hf _
    have hn : n = 0 := by omega
    subst hn
    cases g with
    | zero => rfl
    | succ g => simp [natDecAux]
  | succ f ih =>
    intro g n hf hg
    cases g with
    | zero =>
      have hn : n = 0 := by omega
      subst hn
      simp [natDecAux]
    | succ g =>
      by_cases h10 : n < 10
      · simp [natDecAux, h10]
      · have h1 : n / 10 ≤ f := by omega
        have h2 : n / 10 ≤ g := by omega
        simp only [natDecAux, if_neg h10]
        rw [ih g (n / 10) h1 h2]

theorem natDec_eq (n : Nat) :
    natDec n =
      (if n < 10 then [digitChar n] else natDec (n / 10) ++ [digitChar (n % 10)]) := by
  by_cases h10 : n < 10
  · cases n with
    | zero => simp [natDec, natDecAux, h10]
    | succ m => simp [natDec, natDecAux, h10]
  · rw [if_neg h10]
    obtain ⟨m, hm⟩ := Nat.exists_eq_succ_of_ne_zero (show n ≠ 0 by omega)
    subst hm
    unfold natDec
    simp only [natDecAux, if_neg h10]
    rw [natDecAux_irrel m (m.succ / 10) (m.succ / 10) (by omega) (le_refl _)]

theorem digitChar_toNat {d : Nat} (h : d < 10) : (digitChar d).toNat = 48 + d := by
  unfold digitChar
  exact toNat_ofNat_of_lt (by omega)

theorem isDig_digitChar {d : Nat} (h : d < 10) : isDig (digitChar d) = true := by
  simp [isDig, digitChar_toNat h]
  omega

/-- Every character of a decimal representation is a digit. -/
theorem natDec_all_digits (n : Nat) : (natDec n).all isDig = true := by
  induction n using Nat.strong_induction_on with
  | _ n ih =>
    rw [natDec_eq]
    by_cases h10 : n < 10
    · simp [h10, isDig_digitChar h10]
    · have : n / 10 < n := by omega
      simp only [if_neg h10, List.all_append]
      rw [ih _ this]
      simp [isDig_digitChar (Nat.mod_lt n (by omega))]

theorem natDec_ne_nil (n : Nat) : natDec n ≠ [] := by
  rw [natDec_eq]
  by_cases h10 : n < 10 <;> simp [h10]

theorem strToNatCore_append (s t : Str) (acc : Nat) :
    strToNatCore (s ++ t) acc = strToNatCore t (strToNatCore s acc) := by
  simp [strToNatCore, List.foldl_append]

theorem strToNatCore_natDec (n acc : Nat) :
    strToNatCore (natDec n) acc = acc * 10 ^ (natDec n).length + n := by
  induction n using Nat.strong_induction_on with
  | _ n ih =>
    rw [natDec_eq]
    by_cases h10 : n < 10
    · simp [h10, strToNatCore, digitChar_toNat h10]
      omega
    · have hlt : n / 10 < n := by omega
      simp only [if_neg h10]
      rw [strToNatCore_append, ih _ hlt]
      have hm : (n % 10) < 10 := Nat.mod_lt n (by omega)
      simp [strToNatCore, digitChar_toNat hm, List.length_append, pow_succ]
      ring_nf
      omega

/-- Parsing the decimal representation of a natural recovers it. -/
theorem strToNat_natDec (n : Nat) : strToNat (natDec n) = some n := by
  unfold strToNat
  rw [if_pos ⟨natDec_ne_nil n, natDec_all_digits n⟩]
  rw [strToNatCore_natDec]
  simp

/-! ## XML elements

The folders of an MQRFH2 header are XML documents.  The source
manipulates them through `ElementTree`: an element has a tag, a list of
attributes, optional text and child elements.  Only this shape is ever
produced or consumed by the codec (no namespace resolution, no tail
text), so the embedding models `etree.tostring` and `etree.fromstring`
on exactly this subset. -/

mutual
inductive XNode where
  | elem (tag : Str) (attrs : List (Str × Str)) (txt : Option Str) (children : XForest)
inductive XForest where
  | nil
  | cons (x : XNode) (xs : XForest)
end

def XNode.tag : XNode → Str
  | .elem t _ _ _ => t

def XNode.attrs : XNode → List (Str × Str)
  | .elem _ a _ _ => a

def XNode.txt : XNode → Option Str
  | .elem _ _ t _ => t

def XNode.children : XNode → XForest
  | .elem _ _ _ c => c

def XForest.isNil : XForest → Bool
  | .nil => true
  | .cons _ _ => false

def XForest.toList : XForest → List XNode
  | .nil => []
  | .cons x xs => x :: xs.toList

/-- `Element.find(tag)`: first direct child whose tag matches. -/
def findChildF : XForest → Str → Option XNode
  | .nil, _ => none
  | .cons x xs, tag => if x.tag = tag then some x else findChildF xs tag

def XNode.find (n : XNode) (tag : Str) : Option XNode :=
  findChildF n.children tag

/-- `ElementTree._escape_cdata`: text content escaping. -/
def xEscText : Str → Str
  | [] => []
  | c :: cs =>
    (if c = '&' then "&amp;".data
     else if c = '<' then "&lt;".data
     else if c = '>' then "&gt;".data
     else [c]) ++ xEscText cs

/-- `ElementTree._escape_attrib`: attribute value escaping. -/
def xEscAttr : Str → Str
  | [] => []
  | c :: cs =>
    (if c = '&' then "&amp;".data
     else if c = '<' then "&lt;".data
     else if c = '>' then "&gt;".data
     else if c = '"' then "&quot;".data
     else if c = '\n' then "&#10;".data
     else [c]) ++ xEscAttr cs

/-- Recognizes one XML entity after an ampersand. -/
def entHead : Str → Option (Char × Str)
  | 'a' :: 'm' :: 'p' :: ';' :: cs => some ('&', cs)
  | 'l' :: 't' :: ';' :: cs => some ('<', cs)
  | 'g' :: 't' :: ';' :: cs => some ('>', cs)
  | 'q' :: 'u' :: 'o' :: 't' :: ';' :: cs => some ('"', cs)
  | '#' :: '1' :: '0' :: ';' :: cs => some ('\n', cs)
  | _ => none

/-- Entity expansion done by the XML parser on text and attribute
values (fueled; one character is consumed per step, so the length of
the input is enough fuel). -/
def xmlUnescapeF : Nat → Str → Str
  | 0, s => s
  | fuel + 1, s =>
    match s with
    | [] => []
    | c :: cs =>
      if c = '&' then
        match entHead cs with
        | some (d, cs2) => d :: xmlUnescapeF fuel cs2
        | none => c :: xmlUnescapeF fuel cs
      else c :: xmlUnescapeF fuel cs

def xmlUnescape (s : Str) : Str := xmlUnescapeF s.length s

def serAttrs : List (Str × Str) → Str
  | [] => []
  | (k, v) :: rest => ' ' :: (k ++ '=' :: '"' :: (xEscAttr v ++ '"' :: serAttrs rest))

mutual
/-- `etree.tostring(element)`: `ElementTree._write` without an XML
declaration.  An element with neither (non-empty) text nor children is
self-closed as in the Python serializer. -/
def serE : XNode → Str
  | .elem tag attrs txt children =>
    let t := txt.getD []
    '<' :: (tag ++ serAttrs attrs ++
      (if t.isEmpty && children.isNil then ' ' :: '/' :: '>' :: []
       else '>' :: (xEscText t ++ serF children ++ '<' :: '/' :: (tag ++ ['>']))))
def serF : XForest → Str
  | .nil => []
  | .cons x xs => serE x ++ serF xs
end

/-- Whitespace as the XML parser sees it. -/
def isXmlSpace (c : Char) : Bool :=
  c = ' ' || c = '\t' || c = '\n' || c = '\x0d'

/-- Characters usable in a tag or attribute name. -/
def isNameChar (c : Char) : Bool :=
  !(isXmlSpace c || c = '<' || c = '>' || c = '/' || c = '=' || c = '"')

/-- Attribute-list parser: `name="value"` pairs separated by
whitespace, stopping in front of `/` or `>`. -/
def parseAttrs : Nat → Str → Option (List (Str × Str) × Str)
  | 0, _ => none
  | fuel + 1, s =>
    match s.dropWhile isXmlSpace with
    | [] => none
    | c :: r0 =>
      if c = '/' ∨ c = '>' then some ([], c :: r0)
      else
        let k := (c :: r0).takeWhile isNameChar
        let r := (c :: r0).dropWhile isNameChar
        if k.isEmpty then none
        else
          match r with
          | '=' :: '"' :: r2 =>
            let v := r2.takeWhile (fun ch => ch != '"')
            let r3 := r2.dropWhile (fun ch => ch != '"')
            match r3 with
            | '"' :: r4 =>
              match parseAttrs fuel r4 with
              | some (attrs, rest) => some ((k, xmlUnescape v) :: attrs, rest)
              | none => none
            | _ => none
          | _ => none

mutual
/-- Element parser for the XML subset the codec exchanges: a start tag
with attributes, either self-closed or holding text followed by child
elements and a matching end tag.  Fuel decreases at every recursive
descent; `fromstring` supplies enough for any input it is given. -/
def parseElem : Nat → Str → Option (XNode × Str)
  | 0, _ => none
  | fuel + 1, s =>
    match s with
    | [] => none
    | c :: r =>
      if c = '<' then
        let tag := r.takeWhile isNameChar
        let r1 := r.dropWhile isNameChar
        if tag.isEmpty then none
        else
          match parseAttrs fuel r1 with
          | some (attrs, r2) =>
            (match r2 with
             | c2 :: r2t =>
               if c2 = '/' then
                 (match r2t with
                  | c3 :: r3 =>
                    if c3 = '>' then some (.elem tag attrs none .nil, r3) else none
                  | [] => none)
               else if c2 = '>' then
                 let t := r2t.takeWhile (fun ch => ch != '<')
                 let r4 := r2t.dropWhile (fun ch => ch != '<')
                 (match parseForest fuel r4 tag with
                  | some (children, r5) =>
                    some (.elem tag attrs
                      (if t.isEmpty then none else some (xmlUnescape t)) children, r5)
                  | none => none)
               else none
             | [] => none)
          | none => none
      else none

/-- Parses sibling elements until the end tag of the enclosing
element. -/
def parseForest (fuel : Nat) (s : Str) (tag : Str) : Option (XForest × Str) :=
  match s with
  | c :: c2 :: r =>
    if c = '<' ∧ c2 = '/' then
      let ctag := r.takeWhile isNameChar
      let r1 := r.dropWhile isNameChar
      if ctag = tag then
        match r1 with
        | c3 :: r2 => if c3 = '>' then some (.nil, r2) else none
        | [] => none
      else none
    else
      match fuel with
      | 0 => none
      | fuel + 1 =>
        match parseElem fuel s with
        | some (x, r1) =>
          (match parseForest fuel r1 tag with
           | some (xs, r2) => some (.cons x xs, r2)
           | none => none)
        | none => none
  | _ => none
end

/-- `etree.fromstring(s)`: parse a document whose root is an element,
allowing trailing whitespace only.  Parse failures raise in Python
(`none` here). -/
def fromstring (s : Str) : Option XNode :=
  match parseElem (s.length + 1) s with
  | some (e, rest) => if rest.all isXmlSpace then some e else none
  | none => none

/-! ## Parser-serializer round trip -/

mutual
def sizeE : XNode → Nat
  | .elem _ attrs _ children => 2 + attrs.length + sizeF children
def sizeF : XForest → Nat
  | .nil => 0
  | .cons x xs => 1 + sizeE x + sizeF xs
end

mutual
/-- Well-formedness of an element for the round trip: tags and
attribute names are non-empty name strings, and text, when present, is
non-empty (the serializer self-closes an empty-text leaf, which reads
back as absent text). -/
def wfE : XNode → Bool
  | .elem tag attrs txt children =>
    !tag.isEmpty && tag.all isNameChar &&
    attrs.all (fun kv => !kv.1.isEmpty && kv.1.all isNameChar) &&
    (match txt with
     | some t => !t.isEmpty
     | none => true) &&
    wfF children
def wfF : XForest → Bool
  | .nil => true
  | .cons x xs => wfE x && wfF xs
end

theorem takeWhile_append_of {p : Char → Bool} :
    ∀ (l r : Str), (∀ c ∈ l, p c = true) → (∀ c, r.head? = some c → p c = false) →
      (l ++ r).takeWhile p = l ∧ (l ++ r).dropWhile p = r := by
  intro l
  induction l with
  | nil =>
    intro r _ hr
    cases r with
    | nil => exact ⟨rfl, rfl⟩
    | cons c cs =>
      have := hr c rfl
      simp [List.takeWhile, List.dropWhile, this]
  | cons a l ih =>
    intro r hl hr
    have ha : p a = true := hl a (by simp)
    have := ih r (fun c hc => hl c (by simp [hc])) hr
    simp [List.takeWhile, List.dropWhile, ha, this.1, this.2]

theorem isNameChar_not_space {c : Char} (h : isNameChar c = true) :
    isXmlSpace c = false := by
  unfold isNameChar at h
  simp only [Bool.not_eq_true'] at h
  cases hx : isXmlSpace c
  · rfl
  · rw [hx] at h
    simp at h

theorem isNameChar_ne_slash {c : Char} (h : isNameChar c = true) : c ≠ '/' := by
  intro hc
  subst hc
  simp [isNameChar, isXmlSpace] at h

theorem isNameChar_ne_gt {c : Char} (h : isNameChar c = true) : c ≠ '>' := by
  intro hc
  subst hc
  simp [isNameChar, isXmlSpace] at h

theorem xEscText_all_ne_lt (t : Str) :
    ∀ c ∈ xEscText t, (c != '<') = true := by
  induction t with
  | nil => simp [xEscText]
  | cons a as ih =>
    intro c hc
    simp only [xEscText, List.mem_append] at hc
    rcases hc with h | h
    · by_cases h1 : a = '&'
      · simp [h1] at h
        rcases h with h | h | h | h | h <;> simp [h]
      · by_cases h2 : a = '<'
        · simp [h1, h2] at h
          rcases h with h | h | h | h <;> simp [h]
        · by_cases h3 : a = '>'
          · simp [h1, h2, h3] at h
            rcases h with h | h | h | h <;> simp [h]
          · simp [h1, h2, h3] at h
            simp [h, h2]
    · exact ih c h

theorem xEscText_ne_nil {t : Str} (h : t ≠ []) : xEscText t ≠ [] := by
  cases t with
  | nil => exact absurd rfl h
  | cons a as =>
    simp only [xEscText]
    by_cases h1 : a = '&' <;> by_cases h2 : a = '<' <;> by_cases h3 : a = '>' <;>
      simp [h1, h2, h3]

theorem xEscAttr_all_ne_quot (t : Str) :
    ∀ c ∈ xEscAttr t, (c != '"') = true := by
  induction t with
  | nil => simp [xEscAttr]
  | cons a as ih =>
    intro c hc
    simp only [xEscAttr, List.mem_append] at hc
    rcases hc with h | h
    · by_cases h1 : a = '&'
      · simp [h1] at h
        rcases h with h | h | h | h | h <;> simp [h]
      · by_cases h2 : a = '<'
        · simp [h1, h2] at h
          rcases h with h | h | h | h <;> simp [h]
        · by_cases h3 : a = '>'
          · simp [h1, h2, h3] at h
            rcases h with h | h | h | h <;> simp [h]
          · by_cases h4 : a = '"'
            · simp [h1, h2, h3, h4] at h
              rcases h with h | h | h | h | h | h <;> simp [h]
            · by_cases h5 : a = '\n'
              · simp [h1, h2, h3, h4, h5] at h
                rcases h with h | h | h | h | h <;> simp [h]
              · simp [h1, h2, h3, h4, h5] at h
                simp [h, h4]
    · exact ih c h

theorem xmlUnescapeF_escText (t : Str) :
    ∀ fuel, (xEscText t).length ≤ fuel → xmlUnescapeF fuel (xEscText t) = t := by
  induction t with
  | nil =>
    intro fuel _
    cases fuel <;> simp [xEscText, xmlUnescapeF]
  | cons a as ih =>
    intro fuel hf
    by_cases h1 : a = '&'
    · subst h1
      simp only [xEscText, if_pos rfl] at hf ⊢
      obtain ⟨f, rfl⟩ : ∃ f, fuel = f + 1 := by
        cases fuel
        · simp at hf
        · exact ⟨_, rfl⟩
      simp only [xmlUnescapeF, List.cons_append, String.data]
      norm_num [entHead]
      exact ih f (by simp at hf; omega)
    · by_cases h2 : a = '<'
      · subst h2
        simp only [xEscText, if_neg h1, if_pos rfl] at hf ⊢
        obtain ⟨f, rfl⟩ : ∃ f, fuel = f + 1 := by
          cases fuel
          · simp at hf
          · exact ⟨_, rfl⟩
        simp only [xmlUnescapeF, List.cons_append, String.data]
        norm_num [entHead]
        exact ih f (by simp at hf; omega)
      · by_cases h3 : a = '>'
        · subst h3
          simp only [xEscText, if_neg h1, if_neg h2, if_pos rfl] at hf ⊢
          obtain ⟨f, rfl⟩ : ∃ f, fuel = f + 1 := by
            cases fuel
            · simp at hf
            · exact ⟨_, rfl⟩
          simp only [xmlUnescapeF, List.cons_append, String.data]
          norm_num [entHead]
          exact ih f (by simp at hf; omega)
        · simp only [xEscText, if_neg h1, if_neg h2, if_neg h3] at hf ⊢
          obtain ⟨f, rfl⟩ : ∃ f, fuel = f + 1 := by
            cases fuel
            · simp at hf
            · exact ⟨_, rfl⟩
          simp only [List.singleton_append, xmlUnescapeF, if_neg h1]
          rw [ih f (by simp at hf; omega)]

theorem xmlUnescape_escText (t : Str) : xmlUnescape (xEscText t) = t :=
  xmlUnescapeF_escText t _ (le_refl _)

theorem xmlUnescapeF_escAttr (t : Str) :
    ∀ fuel, (xEscAttr t).length ≤ fuel → xmlUnescapeF fuel (xEscAttr t) = t := by
  induction t with
  | nil =>
    intro fuel _
    cases fuel <;> simp [xEscAttr, xmlUnescapeF]
  | cons a as ih =>
    intro fuel hf
    by_cases h1 : a = '&'
    · subst h1
      simp only [xEscAttr, if_pos rfl] at hf ⊢
      obtain ⟨f, rfl⟩ : ∃ f, fuel = f + 1 := by
        cases fuel
        · simp at hf
        · exact ⟨_, rfl⟩
      simp only [xmlUnescapeF, List.cons_append, String.data]
      norm_num [entHead]
      exact ih f (by simp at hf; omega)
    · by_cases h2 : a = '<'
      · subst h2
        simp only [xEscAttr, if_neg h1, if_pos rfl] at hf ⊢
        obtain ⟨f, rfl⟩ : ∃ f, fuel = f + 1 := by
          cases fuel
          · simp at hf
          · exact ⟨_, rfl⟩
        simp only [xmlUnescapeF, List.cons_append, String.data]
        norm_num [entHead]
        exact ih f (by simp at hf; omega)
      · by_cases h3 : a = '>'
        · subst h3
          simp only [xEscAttr, if_neg h1, if_neg h2, if_pos rfl] at hf ⊢
          obtain ⟨f, rfl⟩ : ∃ f, fuel = f + 1 := by
            cases fuel
            · simp at hf
            · exact ⟨_, rfl⟩
          simp only [xmlUnescapeF, List.cons_append, String.data]
          norm_num [entHead]
          exact ih f (by simp at hf; omega)
        · by_cases h4 : a = '"'
          · subst h4
            simp only [xEscAttr, if_neg h1, if_neg h2, if_neg h3, if_pos rfl] at hf ⊢
            obtain ⟨f, rfl⟩ : ∃ f, fuel = f + 1 := by
              cases fuel
              · simp at hf
              · exact ⟨_, rfl⟩
            simp only [xmlUnescapeF, List.cons_append, String.data]
            norm_num [entHead]
            exact ih f (by simp at hf; omega)
          · by_cases h5 : a = '\n'
            · subst h5
              simp only [xEscAttr, if_neg h1, if_neg h2, if_neg h3, if_neg h4,
                if_pos rfl] at hf ⊢
              obtain ⟨f, rfl⟩ : ∃ f, fuel = f + 1 := by
                cases fuel
                · simp at hf
                · exact ⟨_, rfl⟩
              simp only [xmlUnescapeF, List.cons_append, String.data]
              norm_num [entHead]
              exact ih f (by simp at hf; omega)
            · simp only [xEscAttr, if_neg h1, if_neg h2, if_neg h3, if_neg h4,
                if_neg h5] at hf ⊢
              obtain ⟨f, rfl⟩ : ∃ f, fuel = f + 1 := by
                cases fuel
                · simp at hf
                · exact ⟨_, rfl⟩
              simp only [List.singleton_append, xmlUnescapeF, if_neg h1]
              rw [ih f (by simp at hf; omega)]

theorem xmlUnescape_escAttr (t : Str) : xmlUnescape (xEscAttr t) = t :=
  xmlUnescapeF_escAttr t _ (le_refl _)

theorem serAttrs_append_head (attrs : List (Str × Str)) (c : Char) (M : Str)
    (h : isNameChar c = false) :
    ∃ d, (serAttrs attrs ++ c :: M).head? = some d ∧ isNameChar d = false := by
  cases attrs with
  | nil => exact ⟨c, rfl, h⟩
  | cons kv t =>
    obtain ⟨k, v⟩ := kv
    exact ⟨' ', by simp [serAttrs], by decide⟩

theorem serF_append_head (cs : XForest) (l : Str) :
    (serF cs ++ '<' :: l).head? = some '<' := by
  cases cs with
  | nil => rfl
  | cons x xs =>
    obtain ⟨tag, attrs, txt, children⟩ := x
    simp [serF, serE]

theorem parseAttrs_ser :
    ∀ (attrs : List (Str × Str)) (fuel : Nat) (sp rest : Str),
      attrs.all (fun kv => !kv.1.isEmpty && kv.1.all isNameChar) = true →
      (∀ c ∈ sp, isXmlSpace c = true) →
      (rest.head? = some '/' ∨ rest.head? = some '>') →
      attrs.length + 1 ≤ fuel →
      parseAttrs fuel (serAttrs attrs ++ (sp ++ rest)) = some (attrs, rest) := by
  intro attrs
  induction attrs with
  | nil =>
    intro fuel sp rest _ hsp hrest hfuel
    obtain ⟨f, rfl⟩ : ∃ f, fuel = f + 1 := ⟨fuel - 1, by omega⟩
    have hrs : ∀ c, rest.head? = some c → isXmlSpace c = false := by
      intro c hc
      rcases hrest with h | h <;> rw [h] at hc <;>
        simp only [Option.some.injEq] at hc <;> rw [← hc] <;> decide
    obtain ⟨c0, r0, rfl, hc0⟩ : ∃ c0 r0, rest = c0 :: r0 ∧ (c0 = '/' ∨ c0 = '>') := by
      rcases hrest with h | h <;>
        (cases rest with
         | nil => simp at h
         | cons a b =>
           simp only [List.head?, Option.some.injEq] at h
           exact ⟨a, b, rfl, by rw [h]; simp⟩)
    simp only [serAttrs, List.nil_append, parseAttrs]
    rw [(takeWhile_append_of sp (c0 :: r0) hsp hrs).2]
    dsimp only
    rw [if_pos hc0]
  | cons kv attrs ih =>
    intro fuel sp rest hwf hsp hrest hfuel
    obtain ⟨k, v⟩ := kv
    obtain ⟨f, rfl⟩ : ∃ f, fuel = f + 1 := ⟨fuel - 1, by omega⟩
    simp only [List.all_cons, Bool.and_eq_true] at hwf
    obtain ⟨⟨hk1, hk2⟩, hwfrest⟩ := hwf
    obtain ⟨kh, kt, rfl⟩ : ∃ kh kt, k = kh :: kt := by
      cases k with
      | nil => simp at hk1
      | cons a b => exact ⟨a, b, rfl⟩
    have hknc : ∀ c ∈ kh :: kt, isNameChar c = true := by
      intro c hc
      exact List.all_eq_true.mp hk2 c hc
    have hkh : isNameChar kh = true := hknc kh (by simp)
    -- the serialized attribute followed by the remaining input
    simp only [serAttrs, List.cons_append, List.append_assoc, parseAttrs]
    -- dropWhile eats exactly the leading space
    have hdw : List.dropWhile isXmlSpace
        (' ' :: (kh :: (kt ++ '=' :: '"' :: (xEscAttr v ++ '"' ::
          (serAttrs attrs ++ (sp ++ rest)))))) =
        kh :: (kt ++ '=' :: '"' :: (xEscAttr v ++ '"' ::
          (serAttrs attrs ++ (sp ++ rest)))) := by
      rw [List.dropWhile_cons_of_pos (by decide)]
      rw [List.dropWhile_cons_of_neg (by simp [isNameChar_not_space hkh])]
    rw [hdw]
    dsimp only
    rw [if_neg (by
      rintro (h | h)
      · exact isNameChar_ne_slash hkh h
      · exact isNameChar_ne_gt hkh h)]
    have htw := takeWhile_append_of (kh :: kt)
      ('=' :: '"' :: (xEscAttr v ++ '"' :: (serAttrs attrs ++ (sp ++ rest))))
      hknc (by
        intro c hc
        simp only [List.head?, Option.some.injEq] at hc
        rw [← hc]; decide)
    simp only [List.cons_append] at htw
    rw [htw.1, htw.2]
    simp only [List.isEmpty_cons, Bool.false_eq_true, if_false]
    have htv := takeWhile_append_of (xEscAttr v)
      ('"' :: (serAttrs attrs ++ (sp ++ rest)))
      (xEscAttr_all_ne_quot v) (by
        intro c hc
        simp only [List.head?, Option.some.injEq] at hc
        rw [← hc]; decide)
    rw [htv.1, htv.2]
    have hflen : attrs.length + 1 ≤ f := by
      simp only [List.length_cons] at hfuel
      omega
    split
    next r4 heq =>
      injection heq with _ heq2
      subst heq2
      rw [ih f sp rest hwfrest hsp hrest hflen]
      rw [xmlUnescape_escAttr]
    next x hne =>
      exact absurd rfl (hne _)

/-- The tail of a serialized element after the opening angle bracket
and tag. -/
def serEtail : XNode → Str
  | .elem tag attrs txt children =>
    let t := txt.getD []
    serAttrs attrs ++
      (if t.isEmpty && children.isNil then ' ' :: '/' :: '>' :: []
       else '>' :: (xEscText t ++ serF children ++ '<' :: '/' :: (tag ++ ['>'])))

theorem serE_shape (e : XNode) : serE e = '<' :: (e.tag ++ serEtail e) := by
  obtain ⟨tag, attrs, txt, children⟩ := e
  simp [serE, serEtail, XNode.tag, List.append_assoc]

theorem wfE_parts {tag : Str} {attrs : List (Str × Str)} {txt : Option Str}
    {children : XForest} (h : wfE (.elem tag attrs txt children) = true) :
    (!tag.isEmpty) = true ∧ tag.all isNameChar = true ∧
    attrs.all (fun kv => !kv.1.isEmpty && kv.1.all isNameChar) = true ∧
    txt ≠ some [] ∧
    wfF children = true := by
  simp only [wfE, Bool.and_eq_true] at h
  refine ⟨h.1.1.1.1, h.1.1.1.2, h.1.1.2, ?_, h.2⟩
  intro hx
  subst hx
  simpa using h.1.2

theorem head?_pred_false {p : Char → Bool} {W : Str} {d : Char}
    (hd : W.head? = some d) (hdn : p d = false) :
    ∀ c, W.head? = some c → p c = false := by
  intro c hc
  rw [hd] at hc
  simp only [Option.some.injEq] at hc
  rw [← hc]
  exact hdn

/-- Parsing a serialized well-formed element consumes exactly the
serialization and returns the element (simultaneously for forests,
which end at the closing tag of the enclosing element). -/
theorem parse_ser (fuel : Nat) :
    (∀ (e : XNode) (rest : Str), wfE e = true → sizeE e ≤ fuel →
      parseElem fuel (serE e ++ rest) = some (e, rest)) ∧
    (∀ (cs : XForest) (tag rest : Str), wfF cs = true → sizeF cs ≤ fuel →
      tag.all isNameChar = true →
      parseForest fuel (serF cs ++ '<' :: '/' :: (tag ++ '>' :: rest)) tag =
        some (cs, rest)) := by
  induction fuel using Nat.strong_induction_on with
  | _ fuel IH =>
    constructor
    · intro e rest hwf hsz
      obtain ⟨tag, attrs, txt, children⟩ := e
      simp only [wfE, Bool.and_eq_true] at hwf
      obtain ⟨⟨⟨⟨htag1, htag2⟩, hattrs⟩, htxt⟩, hch⟩ := hwf
      obtain ⟨th, tt, rfl⟩ : ∃ th tt, tag = th :: tt := by
        cases tag with
        | nil => simp at htag1
        | cons a b => exact ⟨a, b, rfl⟩
      have htnc : ∀ c ∈ th :: tt, isNameChar c = true :=
        fun c hc => List.all_eq_true.mp htag2 c hc
      have hsz' : 2 + attrs.length + sizeF children ≤ fuel := by
        simpa [sizeE] using hsz
      obtain ⟨f, rfl⟩ : ∃ f, fuel = f + 1 := ⟨fuel - 1, by omega⟩
      have hfattrs : attrs.length + 1 ≤ f := by omega
      -- case analysis mirroring the serializer branches
      cases txt with
      | none =>
        by_cases hnil : children.isNil
        · -- text absent, no children: the element is self-closed
          cases children with
          | cons _ _ => simp [XForest.isNil] at hnil
          | nil =>
          simp only [serE, Option.getD, List.isEmpty_nil, XForest.isNil,
            Bool.and_self, if_true, List.cons_append, List.append_assoc,
            List.nil_append, parseElem]
          have hW := serAttrs_append_head attrs ' '
            ('/' :: '>' :: rest) (by decide)
          obtain ⟨d, hd, hdn⟩ := hW
          have htw := takeWhile_append_of (th :: tt)
            (serAttrs attrs ++ ' ' :: '/' :: '>' :: rest) htnc
            (head?_pred_false hd hdn)
          simp only [List.cons_append] at htw
          rw [htw.1, htw.2]
          simp only [List.isEmpty_cons, Bool.false_eq_true, if_false]
          have hpa := parseAttrs_ser attrs f [' '] ('/' :: '>' :: rest) hattrs
            (by intro c hc; simp at hc; rw [hc]; rfl) (Or.inl rfl) hfattrs
          simp only [List.cons_append, List.nil_append] at hpa
          rw [hpa]
          rfl
        · -- text absent but children present: normal form with empty text
          have hniF : children.isNil = false := by
            cases hx : children.isNil
            · rfl
            · exact absurd hx hnil
          simp only [serE, Option.getD, List.isEmpty_nil, hniF, Bool.true_and,
            Bool.false_eq_true, if_false, if_true, xEscText, List.cons_append,
            List.append_assoc, List.nil_append, parseElem]
          have hW := serAttrs_append_head attrs '>'
            (serF children ++ '<' :: '/' :: ((th :: tt) ++ '>' :: rest)) (by decide)
          obtain ⟨d, hd, hdn⟩ := hW
          have htw := takeWhile_append_of (th :: tt)
            (serAttrs attrs ++ '>' ::
              (serF children ++ '<' :: '/' :: ((th :: tt) ++ '>' :: rest))) htnc
            (head?_pred_false hd hdn)
          simp only [List.cons_append] at htw
          rw [htw.1, htw.2]
          simp only [List.isEmpty_cons, Bool.false_eq_true, if_false]
          have hpa := parseAttrs_ser attrs f []
            ('>' :: (serF children ++ '<' :: '/' :: ((th :: tt) ++ '>' :: rest)))
            hattrs (by simp) (Or.inr rfl) hfattrs
          simp only [List.cons_append, List.nil_append] at hpa
          rw [hpa]
          dsimp only
          rw [if_neg (by decide), if_pos rfl]
          have hserf := serF_append_head children ('/' :: (th :: (tt ++ '>' :: rest)))
          have hr2 := @head?_pred_false (fun ch => ch != '<') _ '<' hserf (by decide)
          have htt := takeWhile_append_of []
            (serF children ++ '<' :: '/' :: (th :: (tt ++ '>' :: rest)))
            (by simp) hr2
          simp only [List.nil_append] at htt
          rw [htt.1, htt.2]
          have hpf := (IH f (by omega)).2 children (th :: tt) rest hch
            (by omega) htag2
          simp only [List.cons_append] at hpf
          rw [hpf]
          simp
      | some t0 =>
        have ht0 : t0 ≠ [] := by
          intro h0
          subst h0
          simp at htxt
        have hte : (xEscText t0).isEmpty = false := by
          cases hx : xEscText t0 with
          | nil => exact absurd hx (xEscText_ne_nil ht0)
          | cons a b => rfl
        have hcond : (t0.isEmpty && children.isNil) = false := by
          cases hx : t0 with
          | nil => exact absurd hx ht0
          | cons a b => rfl
        simp only [serE, Option.getD, hcond, Bool.false_eq_true, if_false,
          List.cons_append, List.append_assoc, List.nil_append, parseElem]
        have hW := serAttrs_append_head attrs '>'
          (xEscText t0 ++ (serF children ++ '<' :: '/' :: ((th :: tt) ++ '>' :: rest)))
          (by decide)
        obtain ⟨d, hd, hdn⟩ := hW
        have htw := takeWhile_append_of (th :: tt)
          (serAttrs attrs ++ '>' ::
            (xEscText t0 ++ (serF children ++ '<' :: '/' :: ((th :: tt) ++ '>' :: rest))))
          htnc (head?_pred_false hd hdn)
        simp only [List.cons_append] at htw
        rw [htw.1, htw.2]
        simp only [List.isEmpty_cons, Bool.false_eq_true, if_false]
        have hpa := parseAttrs_ser attrs f []
          ('>' :: (xEscText t0 ++ (serF children ++ '<' :: '/' :: ((th :: tt) ++ '>' :: rest))))
          hattrs (by simp) (Or.inr rfl) hfattrs
        simp only [List.cons_append, List.nil_append] at hpa
        rw [hpa]
        dsimp only
        rw [if_pos trivial]
        have hserf := serF_append_head children ('/' :: (th :: (tt ++ '>' :: rest)))
        have hr2 := @head?_pred_false (fun ch => ch != '<') _ '<' hserf (by decide)
        have htt := takeWhile_append_of (xEscText t0)
          (serF children ++ '<' :: '/' :: (th :: (tt ++ '>' :: rest)))
          (xEscText_all_ne_lt t0) hr2
        rw [htt.1, htt.2]
        have hpf := (IH f (by omega)).2 children (th :: tt) rest hch
          (by omega) htag2
        simp only [List.cons_append] at hpf
        rw [hpf]
        simp [hte, xmlUnescape_escText]
    · intro cs tag rest hwf hsz htagall
      cases cs with
      | nil =>
        simp only [serF, List.nil_append]
        unfold parseForest
        have htw := takeWhile_append_of tag ('>' :: rest)
          (fun c hc => List.all_eq_true.mp htagall c hc)
          (by intro c hc; simp only [List.head?, Option.some.injEq] at hc;
              rw [← hc]; rfl)
        simp only [htw.1, htw.2, if_pos trivial, if_pos rfl, and_self]
      | cons x xs =>
        simp only [wfF, Bool.and_eq_true] at hwf
        obtain ⟨hwx, hwxs⟩ := hwf
        obtain ⟨tagx, attrsx, txtx, chx⟩ := x
        obtain ⟨hx1, hx2, -, -, -⟩ := wfE_parts hwx
        obtain ⟨xh, xt, htagx⟩ : ∃ xh xt, tagx = xh :: xt := by
          cases tagx with
          | nil => simp at hx1
          | cons a b => exact ⟨a, b, rfl⟩
        subst htagx
        have hxh : isNameChar xh = true := List.all_eq_true.mp hx2 xh (by simp)
        have hszx : 1 + sizeE (XNode.elem (xh :: xt) attrsx txtx chx) + sizeF xs ≤ fuel := by
          simpa [sizeF] using hsz
        obtain ⟨g, rfl⟩ : ∃ g, fuel = g + 1 := ⟨fuel - 1, by omega⟩
        have hpe := (IH g (by omega)).1 (XNode.elem (xh :: xt) attrsx txtx chx)
          (serF xs ++ '<' :: '/' :: (tag ++ '>' :: rest)) hwx (by omega)
        have hpf := (IH g (by omega)).2 xs tag rest hwxs (by omega) htagall
        simp only [serF, serE_shape, XNode.tag, List.cons_append,
          List.append_assoc] at hpe ⊢
        unfold parseForest
        rw [if_neg (by
          rintro ⟨-, h2⟩
          exact isNameChar_ne_slash hxh h2)]
        dsimp only
        rw [hpe]
        dsimp only
        rw [hpf]

theorem serAttrs_length_ge (attrs : List (Str × Str)) :
    attrs.length ≤ (serAttrs attrs).length := by
  induction attrs with
  | nil => simp [serAttrs]
  | cons kv t ih =>
    obtain ⟨k, v⟩ := kv
    simp only [serAttrs, List.length_cons, List.length_append]
    omega

theorem size_le_len (n : Nat) :
    (∀ e, sizeE e ≤ n → wfE e = true → sizeE e + 3 ≤ (serE e).length) ∧
    (∀ cs, sizeF cs ≤ n → wfF cs = true → sizeF cs ≤ (serF cs).length) := by
  induction n using Nat.strong_induction_on with
  | _ n IH =>
    constructor
    · intro e hsz hwf
      obtain ⟨tag, attrs, txt, children⟩ := e
      obtain ⟨h1, -, -, -, h5⟩ := wfE_parts hwf
      obtain ⟨th, tt, rfl⟩ : ∃ th tt, tag = th :: tt := by
        cases tag with
        | nil => simp at h1
        | cons a b => exact ⟨a, b, rfl⟩
      have hsz' : 2 + attrs.length + sizeF children ≤ n := by
        simpa [sizeE] using hsz
      have hA := serAttrs_length_ge attrs
      by_cases hcond : ((txt.getD []).isEmpty && children.isNil) = true
      · -- the self-closing form
        have hchnil : children.isNil = true := by
          cases hx : children.isNil
          · rw [hx, Bool.and_false] at hcond
            exact absurd hcond (by decide)
          · rfl
        have : sizeF children = 0 := by
          cases children with
          | nil => rfl
          | cons a b => simp [XForest.isNil] at hchnil
        simp only [serE, hcond, if_true, sizeE, this, List.length_cons,
          List.length_append]
        omega
      · have hF : sizeF children ≤ (serF children).length := by
          rcases n with - | m
          · omega
          · exact (IH m (by omega)).2 children (by omega) h5
        have hcondF : ((txt.getD []).isEmpty && children.isNil) = false := by
          cases hx : ((txt.getD []).isEmpty && children.isNil)
          · rfl
          · exact absurd hx hcond
        simp only [serE, hcondF, Bool.false_eq_true, if_false, sizeE,
          List.length_cons, List.length_append]
        omega
    · intro cs hsz hwf
      cases cs with
      | nil => simp [sizeF, serF]
      | cons x xs =>
        simp only [wfF, Bool.and_eq_true] at hwf
        obtain ⟨hwx, hwxs⟩ := hwf
        have hsz' : 1 + sizeE x + sizeF xs ≤ n := by
          simp only [sizeF] at hsz
          exact hsz
        rcases n with - | m
        · omega
        · have hE := (IH m (by omega)).1 x (by omega) hwx
          have hF := (IH m (by omega)).2 xs (by omega) hwxs
          simp only [sizeF, serF, List.length_append]
          omega

theorem sizeE_le_serE_length {e : XNode} (h : wfE e = true) :
    sizeE e + 3 ≤ (serE e).length :=
  (size_le_len (sizeE e)).1 e (le_refl _) h

/-- `MQRFH2JMS._pad_folder`: pads the folder to a multiple of 4 with
trailing spaces (`str.ljust`). -/
def pad_folder (folder : Str) : Str :=
  if folder.length % 4 = 0 then folder
  else folder ++ List.replicate (4 - folder.length % 4) ' '

theorem pad_folder_length_mod (folder : Str) : (pad_folder folder).length % 4 = 0 := by
  unfold pad_folder
  by_cases h : folder.length % 4 = 0
  · simp [h]
  · simp only [h, if_false, List.length_append, List.length_replicate]
    omega

theorem pad_folder_eq_append (folder : Str) :
    ∃ sp : Str, pad_folder folder = folder ++ sp ∧ (∀ c ∈ sp, c = ' ') := by
  unfold pad_folder
  by_cases h : folder.length % 4 = 0
  · exact ⟨[], by simp [h]⟩
  · refine ⟨List.replicate (4 - folder.length % 4) ' ', by simp [h], ?_⟩
    intro c hc
    exact List.eq_of_mem_replicate hc

/-- Parsing a padded serialization of a well-formed element recovers
the element: the parser consumes the document and tolerates the
trailing space padding. -/
theorem fromstring_pad_ser {e : XNode} (h : wfE e = true) :
    fromstring (pad_folder (serE e)) = some e := by
  obtain ⟨sp, hpad, hsp⟩ := pad_folder_eq_append (serE e)
  rw [hpad]
  unfold fromstring
  have hfuel : sizeE e ≤ (serE e ++ sp).length + 1 := by
    have := sizeE_le_serE_length h
    simp only [List.length_append]
    omega
  rw [(parse_ser ((serE e ++ sp).length + 1)).1 e sp h hfuel]
  dsimp only
  rw [if_pos (by
    simp only [List.all_eq_true]
    intro c hc
    rw [hsp c hc]
    rfl)]

/-! ## Constants

`CMQC` values come from the external pymqi / cmqc.h headers the factory
imports; they are opaque transport constants. -/

namespace CMQC

def MQRFH_STRUC_ID : Str := "RFH ".data
def MQFMT_STRING : Str := "MQSTR   ".data
def MQPER_NOT_PERSISTENT : Int := 0
def MQPER_PERSISTENT : Int := 1
def MQPER_PERSISTENCE_AS_Q_DEF : Int := 2
def MQPRI_PRIORITY_AS_Q_DEF : Int := -1
def MQEI_UNLIMITED : Int := -1
def MQMI_NONE : Str := List.replicate 24 '\x00'
def MQCI_NONE : Str := List.replicate 24 '\x00'
def MQGI_NONE : Str := List.replicate 24 '\x00'
def MQMF_MSG_IN_GROUP : Nat := 8
def MQMF_LAST_MSG_IN_GROUP : Nat := 16
def MQRO_EXCEPTION : Nat := 16777216
def MQRO_EXPIRATION : Nat := 2097152
def MQRO_COA : Nat := 256
def MQRO_COD : Nat := 2048
def MQRO_PAN : Nat := 1
def MQRO_NAN : Nat := 2
def MQRO_PASS_MSG_ID : Nat := 32768
def MQRO_PASS_CORREL_ID : Nat := 16384
def MQRO_DISCARD_MSG : Nat := 134217728
def MQRC_NO_MSG_AVAILABLE : Int := 2033
def MQMT_DATAGRAM : Int := 8

end CMQC

/-- `_WMQ_MQRFH_VERSION_2`, the literal version word. -/
def WMQ_MQRFH_VERSION_2 : Str := ['\x00', '\x00', '\x00', '\x02']

def WMQ_DEFAULT_ENCODING : Int := 273

def WMQ_DEFAULT_ENCODING_WIRE_FORMAT : Str := pack4 273

def WMQ_DEFAULT_CCSID : Int := 1208

def WMQ_DEFAULT_CCSID_WIRE_FORMAT : Str := pack4 1208

def WMQ_MQFMT_RF_HEADER_2 : Str := "MQHRF2  ".data

def WMQ_MQRFH_NO_FLAGS_WIRE_FORMAT : Str := ['\x00', '\x00', '\x00', '\x00']

def WMQ_ID_PREFIX : Str := "ID:".data

/-- Modelled from the spec: the two-valued delivery-mode enum of
`springpython.jms` (whose source is not under src/); the spec only
requires two distinct values (non-persistent, persistent), matching the
JMS constants 1 and 2. -/
def DELIVERY_MODE_NON_PERSISTENT : Int := 1

/-- Modelled from the spec: see `DELIVERY_MODE_NON_PERSISTENT`. -/
def DELIVERY_MODE_PERSISTENT : Int := 2

/-- The constant `_mcd` folder element built at import time. -/
def mcdElem : XNode :=
  .elem "mcd".data [] none
    (.cons (.elem "Msd".data [] (some "jms_text".data) .nil)
      (.cons (.elem "msgbody".data
        [("xmlns:xsi".data, "dummy".data), ("xsi:nil".data, "true".data)]
        none .nil) .nil))

/-- Exceptions the bridge can raise. -/
inductive JmsErr where
  | jms          -- JMSException (configuration, delivery-mode errors)
  | wmq          -- WebSphereMQJMSException (transport and mapping errors)
  | noMessage    -- NoMessageAvailableException
  | keyError     -- Python KeyError
  | valueError   -- Python ValueError / TypeError (bad number, hex or timestamp)
  | parseError   -- XML parse failure (ExpatError)
deriving DecidableEq

/-- A user-property value: a Python string, or another scalar whose
`unicode()` form is its decimal representation. -/
inductive UVal where
  | str (s : Str)
  | intv (i : Int)
deriving DecidableEq

/-- Modelled from the spec: `springpython.jms.core.TextMessage` (source
not under src/) — a text payload, the fixed reserved JMS attributes,
and an open set of user properties (`set(dir(message)) -
reserved_attributes` in the source; the set iteration order is
abstracted by the order of `userProps`). -/
structure TextMessage where
  text : Option Str := none
  jms_destination : Option Str := none
  jms_delivery_mode : Option Int := none
  jms_priority : Option Int := none
  jms_correlation_id : Option Str := none
  jms_reply_to : Option Str := none
  jms_expiration : Option Int := none
  jms_message_id : Option Str := none
  jms_timestamp : Option Int := none
  jms_redelivered : Option Bool := none
  JMSXUserID : Option Str := none
  JMSXAppID : Option Str := none
  JMSXDeliveryCount : Option Int := none
  JMSXGroupID : Option Str := none
  JMSXGroupSeq : Option Int := none
  JMS_IBM_Report : List (Str × Option Nat) := []
  JMS_IBM_Feedback : Option Int := none
  JMS_IBM_Last_Msg_In_Group : Option Nat := none
  JMS_IBM_MsgType : Option Int := none
  JMS_IBM_Format : Option Str := none
  JMS_IBM_PutApplType : Option Int := none
  JMS_IBM_PutDate : Option Str := none
  JMS_IBM_PutTime : Option Str := none
  userProps : List (Str × UVal) := []
deriving DecidableEq

/-- The native message descriptor (MQMD) as pymqi exposes it, with the
pymqi `md()` default values. -/
structure MD where
  Format : Str := List.replicate 8 ' '
  CodedCharSetId : Int := 0
  Encoding : Int := 0
  MsgType : Int := CMQC.MQMT_DATAGRAM
  MsgId : Str := CMQC.MQMI_NONE
  CorrelId : Str := CMQC.MQCI_NONE
  GroupId : Str := CMQC.MQGI_NONE
  Persistence : Int := CMQC.MQPER_PERSISTENCE_AS_Q_DEF
  Priority : Int := CMQC.MQPRI_PRIORITY_AS_Q_DEF
  Expiry : Int := CMQC.MQEI_UNLIMITED
  Report : Nat := 0
  MsgFlags : Nat := 0
  Feedback : Int := 0
  MsgSeqNumber : Int := 1
  BackoutCount : Int := 0
  ReplyToQ : Str := List.replicate 48 ' '
  ReplyToQMgr : Str := List.replicate 48 ' '
  UserIdentifier : Str := List.replicate 12 ' '
  PutApplType : Int := 0
  PutApplName : Str := List.replicate 28 ' '
  PutDate : Str := List.replicate 8 ' '
  PutTime : Str := List.replicate 8 ' '
deriving DecidableEq

/-- Python truthiness of an optional integer attribute (None and 0 are
falsy). -/
def truthyOptInt : Option Int → Bool
  | none => false
  | some v => v != 0

/-- Python truthiness of an optional string attribute (None and the
empty string are falsy). -/
def truthyOptStr : Option Str → Bool
  | none => false
  | some s => !s.isEmpty

/-- `str.ljust(width)`: pad on the right with spaces. -/
def pyLjust (s : Str) (width : Nat) : Str :=
  s ++ List.replicate (width - s.length) ' '

/-- Value of one hexadecimal digit character. -/
def hexDigVal (c : Char) : Option Nat :=
  if 48 ≤ c.toNat ∧ c.toNat ≤ 57 then some (c.toNat - 48)
  else if 97 ≤ c.toNat ∧ c.toNat ≤ 102 then some (c.toNat - 87)
  else if 65 ≤ c.toNat ∧ c.toNat ≤ 70 then some (c.toNat - 55)
  else none

/-- `binascii.unhexlify`: raises (`none`) on odd length or a non-hex
digit. -/
def pyUnhexlify : Str → Option Str
  | [] => some []
  | a :: b :: rest => do
    let ha ← hexDigVal a
    let hb ← hexDigVal b
    let r ← pyUnhexlify rest
    pure (Char.ofNat (16 * ha + hb) :: r)
  | _ => none

/-- `binascii.hexlify`: two lowercase hex digits per byte. -/
def pyHexlify (s : Str) : Str :=
  s.flatMap (fun c => [Nat.digitChar (c.toNat / 16 % 16), Nat.digitChar (c.toNat % 16)])

/-- `s.replace(pat, "", 1)`: removes the first occurrence of `pat`, if
any (fueled structural recursion; the input length is enough fuel). -/
def removeFirstSubF : Nat → Str → Str → Str
  | 0, s, _ => s
  | fuel + 1, s, pat =>
    match s with
    | [] => []
    | c :: cs =>
      if pat.isPrefixOf (c :: cs) then (c :: cs).drop pat.length
      else c :: removeFirstSubF fuel cs pat

def removeFirstSub (s pat : Str) : Str := removeFirstSubF s.length s pat

/-- `unhexlify_wmq_id`: strip the first `ID:` marker and decode the
hex. -/
def unhexlify_wmq_id (wmq_id : Str) : Option Str :=
  pyUnhexlify (removeFirstSub wmq_id WMQ_ID_PREFIX)

/-- Python `str.split` on a slash. -/
def splitSlashAux : Str → Str → List Str
  | [], acc => [acc.reverse]
  | c :: rest, acc =>
    if c = '/' then acc.reverse :: splitSlashAux rest []
    else splitSlashAux rest (c :: acc)

def splitSlash (s : Str) : List Str := splitSlashAux s []

/-- Python `"/".join`. -/
def joinSlash : List Str → Str
  | [] => []
  | [x] => x
  | x :: rest => x ++ '/' :: joinSlash rest

/-- `WebSphereMQConnectionFactory._strip_prefixes_from_destination`. -/
def strip_prefixes_from_destination (destination : Str) : Str :=
  if "queue:///".data.isPrefixOf destination then
    removeFirstSub destination "queue:///".data
  else if "queue://".data.isPrefixOf destination then
    joinSlash ((splitSlash (removeFirstSub destination "queue://".data)).drop 1)
  else destination

/-! ## The encoder (MQRFH2JMS.build_header, add_jms, add_usr) -/

def XForest.ofList : List XNode → XForest
  | [] => .nil
  | x :: xs => .cons x (XForest.ofList xs)

/-- `unicode(x)` for an optional integer attribute (None prints as the
four characters None). -/
def pyUnicodeOptInt : Option Int → Str
  | none => "None".data
  | some v => intDec v

/-- `MQRFH2JMS.add_jms`: the jms folder, with Dst, Tms, Dlv always
present and Exp, Pri, Cid appended when the corresponding attribute is
truthy. -/
def add_jms (message : TextMessage) (queue_name : Str) (now : Nat) : XNode :=
  .elem "jms".data [] none (XForest.ofList (
    [.elem "Dst".data [] (some ("queue:///".data ++ queue_name)) .nil,
     .elem "Tms".data [] (some (natDec now)) .nil,
     .elem "Dlv".data [] (some (pyUnicodeOptInt message.jms_delivery_mode)) .nil] ++
    (if truthyOptInt message.jms_expiration then
      [.elem "Exp".data []
        (some (intDec ((now : Int) + message.jms_expiration.getD 0))) .nil]
     else []) ++
    (if truthyOptInt message.jms_priority then
      [.elem "Pri".data [] (some (intDec (message.jms_priority.getD 0))) .nil]
     else []) ++
    (if truthyOptStr message.jms_correlation_id then
      [.elem "Cid".data [] (some (message.jms_correlation_id.getD [])) .nil]
     else [])))

/-- `MQRFH2JMS.add_usr`: one leaf element per user property; string
values are escaped with `xml.sax.saxutils.escape` (the same character
set as the serializer's text escaping), other scalars are rendered with
`unicode()`. -/
def add_usr (message : TextMessage) : Option XNode :=
  match message.userProps with
  | [] => none
  | props =>
    some (.elem "usr".data [] none (XForest.ofList (props.map (fun kv =>
      XNode.elem kv.1 []
        (some (match kv.2 with
          | .str s => xEscText s
          | .intv i => intDec i)) .nil))))

/-- The 36-byte fixed part of the header with a given total length. -/
def fixed_part (total_header_length : Nat) : Str :=
  CMQC.MQRFH_STRUC_ID ++ WMQ_MQRFH_VERSION_2 ++ pack4 total_header_length ++
  WMQ_DEFAULT_ENCODING_WIRE_FORMAT ++ WMQ_DEFAULT_CCSID_WIRE_FORMAT ++
  CMQC.MQFMT_STRING ++ WMQ_MQRFH_NO_FLAGS_WIRE_FORMAT ++
  WMQ_DEFAULT_CCSID_WIRE_FORMAT

/-- `MQRFH2JMS.build_header`. -/
def build_header (needs_mcd : Bool) (message : TextMessage) (queue_name : Str)
    (now : Nat) : Str :=
  let mcd := if needs_mcd then pad_folder (serE mcdElem) else []
  let mcd_len := mcd.length
  let jms := pad_folder (serE (add_jms message queue_name now))
  let jms_len := jms.length
  let usrElem := add_usr message
  let usr := match usrElem with
    | some u => pad_folder (serE u)
    | none => []
  let usr_len := usr.length
  -- len(self.folders): mcd when needed, jms always, usr when present
  let folder_count := (if needs_mcd then 1 else 0) + 1 +
    (if usrElem.isSome then 1 else 0)
  let variable_part_length := folder_count * 4 + mcd_len + jms_len + usr_len
  let total_header_length := 36 + variable_part_length
  fixed_part total_header_length ++
  (if needs_mcd then pack4 mcd_len ++ mcd else []) ++
  pack4 jms_len ++ jms ++
  (match usrElem with
   | some _ => pack4 usr_len ++ usr
   | none => [])

/-- The folder bodies `build_header` emits, in emission order, each
already padded. -/
def emitted_folders (needs_mcd : Bool) (message : TextMessage) (queue_name : Str)
    (now : Nat) : List Str :=
  (if needs_mcd then [pad_folder (serE mcdElem)] else []) ++
  [pad_folder (serE (add_jms message queue_name now))] ++
  (match add_usr message with
   | some u => [pad_folder (serE u)]
   | none => [])

/-- The body `send` puts on the queue: the MQRFH2 header followed by
the UTF-8 encoded text payload (the payload is modelled as its byte
string). -/
def send_body (needs_mcd : Bool) (message : TextMessage) (queue_name : Str)
    (now : Nat) : Str :=
  build_header needs_mcd message queue_name now ++ message.text.getD []

/-! ## The decoder (build_folders_and_payload_from_message, build_folder,
_build_text_message) -/

/-- Resolution of one Python slice index against a sequence length
(negative indices count from the end; out-of-range indices clamp). -/
def pyResolveIdx (n : Nat) (i : Int) : Nat :=
  if i < 0 then ((n : Int) + i).toNat else min i.toNat n

/-- Python `s[a:b]`. -/
def pySlice (s : Str) (a b : Int) : Str :=
  (s.take (pyResolveIdx s.length b)).drop (pyResolveIdx s.length a)

/-- Python `s[a:]`. -/
def pySliceFrom (s : Str) (a : Int) : Str :=
  s.drop (pyResolveIdx s.length a)

/-- Substring test for the undeclared-namespace quirk:
does the folder contain the fourteen characters of the
`xsi:nil="true"` attribute? -/
def containsXsiNil : Str → Bool
  | 'x' :: 's' :: 'i' :: ':' :: 'n' :: 'i' :: 'l' :: '=' :: '"' :: 't' :: 'r' :: 'u' :: 'e' :: '"' :: _ => true
  | _ :: rest => containsXsiNil rest
  | [] => false

/-- Does the folder contain the characters `xmlns`? -/
def containsXmlns : Str → Bool
  | 'x' :: 'm' :: 'l' :: 'n' :: 's' :: _ => true
  | _ :: rest => containsXmlns rest
  | [] => false

/-- `str.replace` of every `xsi:nil="true"` occurrence by
`xmlns:xsi="dummy" xsi:nil="true"` (left to right, non-overlapping). -/
def replaceXsiNil : Str → Str
  | 'x' :: 's' :: 'i' :: ':' :: 'n' :: 'i' :: 'l' :: '=' :: '"' :: 't' :: 'r' :: 'u' :: 'e' :: '"' :: rest =>
    "xmlns:xsi=".data ++ '"' :: "dummy".data ++ '"' :: ' ' ::
    "xsi:nil=".data ++ '"' :: "true".data ++ '"' :: replaceXsiNil rest
  | c :: rest => c :: replaceXsiNil rest
  | [] => []

/-- Replace-or-insert into the `self.folders` dict (insertion order
preserved, later folders with the same root overwrite). -/
def dinsert : List (Str × XNode) → Str → XNode → List (Str × XNode)
  | [], k, v => [(k, v)]
  | (k0, v0) :: t, k, v =>
    if k0 = k then (k, v) :: t else (k0, v0) :: dinsert t k v

/-- `MQRFH2JMS.build_folder`: bind the dummy namespace when needed,
parse the folder as XML (a parse failure raises), store it under its
root name when recognized, otherwise log and skip. -/
def build_folder (needs_mcd : Bool) (folders : List (Str × XNode))
    (raw_folder : Str) : Option (List (Str × XNode)) :=
  let raw :=
    if containsXsiNil raw_folder && !containsXmlns raw_folder then
      replaceXsiNil raw_folder
    else raw_folder
  match fromstring raw with
  | none => none
  | some folder =>
    let root_names := if needs_mcd then ["jms".data, "usr".data, "mcd".data]
      else ["jms".data, "usr".data]
    if folder.tag ∈ root_names then some (dinsert folders folder.tag folder)
    else some folders

/-- The while loop of `build_folders_and_payload_from_message`: read a
4-byte length, slice that many bytes as a folder, repeat.  Fuel bounds
the number of iterations; a non-negative folder length consumes at
least four bytes per step, so the input length is enough fuel for every
terminating run (a malformed negative length makes the Python loop spin
forever, which surfaces here as fuel exhaustion, `none`). -/
def parse_blocks (needs_mcd : Bool) : Nat → Str → List (Str × XNode) →
    Option (List (Str × XNode))
  | _, [], folders => some folders
  | 0, _ :: _, _ => none
  | fuel + 1, left, folders =>
    match unpack4 (left.take 4) with
    | none => none
    | some current_folder_length =>
      let raw_folder := pySlice left 4 (4 + current_folder_length)
      match build_folder needs_mcd folders raw_folder with
      | none => none
      | some folders2 =>
        parse_blocks needs_mcd fuel
          (pySliceFrom left (4 + current_folder_length)) folders2

/-- `MQRFH2JMS.build_folders_and_payload_from_message`. -/
def build_folders_and_payload (needs_mcd : Bool) (message : Str) :
    Option (List (Str × XNode) × Str) :=
  match unpack4 (pySlice message 8 12) with
  | none => none
  | some total_mqrfh2_length =>
    let mqrfh2 := pySlice message 36 total_mqrfh2_length
    let payload := pySliceFrom message (36 + (mqrfh2.length : Int))
    match parse_blocks needs_mcd (mqrfh2.length + 1) mqrfh2 [] with
    | none => none
    | some folders => some (folders, payload)

/-- The time functions of the Python standard library the decoder
calls: `mktime` interprets a broken-down local time, `altzone` is the
local DST offset west of UTC in seconds.  Both are environment
dependent and supplied externally. -/
structure TimeEnv where
  mktime : Nat → Nat → Nat → Nat → Nat → Nat → Int
  altzone : Int

def digitsToNat (s : Str) : Nat := strToNatCore s 0

/-- `time.strptime(s, "%Y%m%d%H%M%S")`: fourteen digits with the
calendar fields in range, else a ValueError (`none`). -/
def strptimeYmdHms (s : Str) : Option (Nat × Nat × Nat × Nat × Nat × Nat) :=
  if s.length = 14 ∧ s.all isDig then
    let y := digitsToNat (s.take 4)
    let mo := digitsToNat ((s.drop 4).take 2)
    let d := digitsToNat ((s.drop 6).take 2)
    let h := digitsToNat ((s.drop 8).take 2)
    let mi := digitsToNat ((s.drop 10).take 2)
    let sec := digitsToNat ((s.drop 12).take 2)
    if 1 ≤ mo ∧ mo ≤ 12 ∧ 1 ≤ d ∧ d ≤ 31 ∧ h ≤ 23 ∧ mi ≤ 59 ∧ sec ≤ 61 then
      some (y, mo, d, h, mi, sec)
    else none
  else none

/-- `WebSphereMQConnectionFactory._get_jms_timestamp_from_md`: combine
put date (YYYYMMDD) and put time (HHMMSShh, hundredths) into epoch
milliseconds.  The source computes
`long((mktime(strptime(..)) - altzone + centi) * 1000.0)`; the float
arithmetic is modelled exactly (no claim depends on the value, only on
success or failure). -/
def get_jms_timestamp_from_md (env : TimeEnv) (put_date put_time : Str) :
    Option Int := do
  let centi ← strToNat (put_time.drop 6)
  let tm ← strptimeYmdHms (put_date ++ put_time.take 6)
  pure ((env.mktime tm.1 tm.2.1 tm.2.2.1 tm.2.2.2.1 tm.2.2.2.2.1 tm.2.2.2.2.2
    - env.altzone) * 1000 + (centi : Int) * 10)

/-- The decode-side dictionary mapping report bits to JMS header name
suffixes (`md_report_to_jms`; dict iteration order abstracted as the
literal order). -/
def md_report_to_jms : List (Nat × Str) :=
  [(CMQC.MQRO_EXCEPTION, "Exception".data),
   (CMQC.MQRO_EXPIRATION, "Expiration".data),
   (CMQC.MQRO_COA, "COA".data),
   (CMQC.MQRO_COD, "COD".data),
   (CMQC.MQRO_PAN, "PAN".data),
   (CMQC.MQRO_NAN, "NAN".data),
   (CMQC.MQRO_PASS_MSG_ID, "Pass_Msg_ID".data),
   (CMQC.MQRO_PASS_CORREL_ID, "Pass_Correl_ID".data),
   (CMQC.MQRO_DISCARD_MSG, "Discard_Msg".data)]

/-- `WebSphereMQConnectionFactory._build_text_message`: decode the wire
bytes and the native descriptor into a TextMessage.  User properties
are read from the attributes of the usr folder (`usr_folder.items()`),
an element truthiness test is on its children, and errors follow the
order of the source: folder parsing, jms leaf extraction, the
persistence mapping, then the timestamp derivation. -/
def btm_usr (folders : List (Str × XNode)) : TextMessage :=
  let tm0 : TextMessage := {}
  match folders.lookup "usr".data with
  | some u =>
    if u.children.isNil then tm0
    else { tm0 with userProps := u.attrs.map (fun (kv : Str × Str) => (kv.1, UVal.str kv.2)) }
  | none => tm0

/-- The jms-folder block of `_build_text_message`: Dst, Exp (defaulting
to zero when absent, as in Java) and Cid. -/
def btm_jms (folders : List (Str × XNode)) (tm1 : TextMessage) :
    Except JmsErr TextMessage :=
  match folders.lookup "jms".data with
  | some j =>
    if j.children.isNil then Except.ok tm1
    else do
      let tmA ← match j.find "Dst".data with
        | some d =>
          (match d.txt with
           | some t => Except.ok { tm1 with jms_destination := some (pyStrip t) }
           | none => Except.error JmsErr.valueError)
        | none => Except.ok tm1
      let tmB ← match j.find "Exp".data with
        | some e2 =>
          (match e2.txt with
           | some t =>
             (match strToInt t with
              | some v => Except.ok { tmA with jms_expiration := some v }
              | none => Except.error JmsErr.valueError)
           | none => Except.error JmsErr.valueError)
        | none => Except.ok { tmA with jms_expiration := some 0 }
      match j.find "Cid".data with
      | some c => Except.ok { tmB with jms_correlation_id := c.txt }
      | none => Except.ok tmB
  | none => Except.ok tm1

/-- The persistence-to-delivery-mode mapping of `_build_text_message`:
an unrecognized persistence raises a `WebSphereMQJMSException`. -/
def btm_delivery_mode (md : MD) : Except JmsErr Int :=
  if md.Persistence = CMQC.MQPER_NOT_PERSISTENT then
    Except.ok DELIVERY_MODE_NON_PERSISTENT
  else if md.Persistence = CMQC.MQPER_PERSISTENT ∨
      md.Persistence = CMQC.MQPER_PERSISTENCE_AS_Q_DEF then
    Except.ok DELIVERY_MODE_PERSISTENT
  else Except.error JmsErr.wmq

/-- The descriptor-driven fields of `_build_text_message`: reply-to,
the put timestamp, identifiers, report flags etc. -/
def btm_md_fields (env : TimeEnv) (md : MD) (tm3 : TextMessage) :
    Except JmsErr TextMessage := do
  let tm4 :=
    if !(pyStrip md.ReplyToQ).isEmpty then
      { tm3 with jms_reply_to := some ("queue://".data ++ pyStrip md.ReplyToQMgr ++ '/' :: pyStrip md.ReplyToQ) }
    else tm3
  let ts ← match get_jms_timestamp_from_md env (pyStrip md.PutDate) (pyStrip md.PutTime) with
    | some t => Except.ok t
    | none => Except.error JmsErr.valueError
  let reports := md_report_to_jms.map (fun rv =>
    ("JMS_IBM_Report_".data ++ rv.2,
     if md.Report &&& rv.1 != 0 then some (md.Report &&& rv.1) else none))
  Except.ok { tm4 with
    jms_priority := some md.Priority
    jms_message_id := some (WMQ_ID_PREFIX ++ pyHexlify md.MsgId)
    jms_timestamp := some ts
    jms_redelivered := some (md.BackoutCount != 0)
    JMSXUserID := some (pyStrip md.UserIdentifier)
    JMSXAppID := some (pyStrip md.PutApplName)
    JMSXDeliveryCount := some md.BackoutCount
    JMSXGroupID := some (pyStrip md.GroupId)
    JMSXGroupSeq := some md.MsgSeqNumber
    JMS_IBM_Report := reports
    JMS_IBM_MsgType := some md.MsgType
    JMS_IBM_Feedback := some md.Feedback
    JMS_IBM_Format := some (pyStrip md.Format)
    JMS_IBM_PutApplType := some md.PutApplType
    JMS_IBM_PutDate := some (pyStrip md.PutDate)
    JMS_IBM_PutTime := some (pyStrip md.PutTime)
    JMS_IBM_Last_Msg_In_Group :=
      if md.MsgFlags &&& CMQC.MQMF_LAST_MSG_IN_GROUP != 0 then
        some CMQC.MQMF_LAST_MSG_IN_GROUP
      else none }

/-- `WebSphereMQConnectionFactory._build_text_message`: decode the wire
bytes and the native descriptor into a TextMessage.  User properties
are read from the attributes of the usr folder (`usr_folder.items()`),
an element truthiness test is on its children, and errors follow the
order of the source: folder parsing, jms leaf extraction, the
persistence mapping, then the timestamp derivation. -/
def build_text_message (env : TimeEnv) (needs_mcd : Bool) (md : MD)
    (message : Str) : Except JmsErr TextMessage := do
  let (folders, payload) ←
    match build_folders_and_payload needs_mcd message with
    | none => Except.error JmsErr.parseError
    | some r => Except.ok r
  let tm1 := btm_usr folders
  let tm2 ← btm_jms folders tm1
  let dm ← btm_delivery_mode md
  let tm5 ← btm_md_fields env md { tm2 with jms_delivery_mode := some dm }
  Except.ok (if !payload.isEmpty then { tm5 with text := some payload } else tm5)

/-! ## The descriptor builder (_build_md) and post-send mapping -/

def report_jms_names : List Str :=
  ["Exception".data, "Expiration".data, "COA".data, "COD".data, "PAN".data,
   "NAN".data, "Pass_Msg_ID".data, "Pass_Correl_ID".data, "Discard_Msg".data]

/-- `getattr(message, "JMS_IBM_Report_" + name, None)`. -/
def getattrReport (m : TextMessage) (name : Str) : Option Nat :=
  match m.JMS_IBM_Report.lookup ("JMS_IBM_Report_".data ++ name) with
  | some v => v
  | none => none

/-- The correlation-id block of `_build_md`. -/
def bmd_correl (message : TextMessage) (md : MD) : Except JmsErr MD :=
  if truthyOptStr message.jms_correlation_id then
    let cid := message.jms_correlation_id.getD []
    if WMQ_ID_PREFIX.isPrefixOf cid then
      match unhexlify_wmq_id cid with
      | some b => Except.ok { md with CorrelId := b }
      | none => Except.error JmsErr.valueError
    else Except.ok { md with CorrelId := (pyLjust cid 24).take 24 }
  else Except.ok md

/-- The delivery-mode block of `_build_md`: an unrecognized (truthy)
delivery mode raises a `JMSException`. -/
def bmd_delivery (message : TextMessage) (md : MD) : Except JmsErr MD :=
  if truthyOptInt message.jms_delivery_mode then
    if message.jms_delivery_mode = some DELIVERY_MODE_NON_PERSISTENT then
      Except.ok { md with Persistence := CMQC.MQPER_NOT_PERSISTENT }
    else if message.jms_delivery_mode = some DELIVERY_MODE_PERSISTENT then
      Except.ok { md with Persistence := CMQC.MQPER_PERSISTENT }
    else Except.error JmsErr.jms
  else Except.ok md

def bmd_priority (message : TextMessage) (md : MD) : MD :=
  if truthyOptInt message.jms_priority then
    { md with Priority := message.jms_priority.getD 0 }
  else md

def bmd_reply_to (message : TextMessage) (md : MD) : MD :=
  if truthyOptStr message.jms_reply_to then
    { md with ReplyToQ := message.jms_reply_to.getD [] }
  else md

/-- The expiry block of `_build_md`: jms_expiration is in milliseconds,
md.Expiry in centiseconds.  The source test `exp / 1000 >
214748364.7` uses Python 2 floor division against a float lying
strictly between 214748364 and 214748365, so it holds exactly when the
floor quotient reaches 214748365; `exp / 10` is floor division too
(`Int.fdiv`). -/
def bmd_expiry (message : TextMessage) (md : MD) : MD :=
  if truthyOptInt message.jms_expiration then
    let exp := message.jms_expiration.getD 0
    if Int.fdiv exp 1000 ≥ 214748365 then
      { md with Expiry := CMQC.MQEI_UNLIMITED }
    else { md with Expiry := Int.fdiv exp 10 }
  else md

/-- JMSXGroupSeq is tested with `!= None`, not truthiness. -/
def bmd_group_seq (message : TextMessage) (md : MD) : MD :=
  match message.JMSXGroupSeq with
  | some v => { md with MsgSeqNumber := v, MsgFlags := md.MsgFlags ||| CMQC.MQMF_MSG_IN_GROUP }
  | none => md

/-- JMSXGroupID is tested with `!= None`, not truthiness. -/
def bmd_group_id (message : TextMessage) (md : MD) : Except JmsErr MD :=
  match message.JMSXGroupID with
  | some gid =>
    if WMQ_ID_PREFIX.isPrefixOf gid then
      match unhexlify_wmq_id gid with
      | some b => Except.ok { md with GroupId := b, MsgFlags := md.MsgFlags ||| CMQC.MQMF_MSG_IN_GROUP }
      | none => Except.error JmsErr.valueError
    else Except.ok { md with GroupId := (pyLjust gid 24).take 24, MsgFlags := md.MsgFlags ||| CMQC.MQMF_MSG_IN_GROUP }
  | none => Except.ok md

def bmd_reports (message : TextMessage) (md : MD) : MD :=
  report_jms_names.foldl (fun md name =>
    match getattrReport message name with
    | some v => { md with Report := md.Report ||| v }
    | none => md) md

def bmd_feedback (message : TextMessage) (md : MD) : MD :=
  match message.JMS_IBM_Feedback with
  | some v => { md with Feedback := v }
  | none => md

def bmd_last_msg (message : TextMessage) (md : MD) : MD :=
  match message.JMS_IBM_Last_Msg_In_Group with
  | some _ => { md with MsgFlags := md.MsgFlags ||| CMQC.MQMF_LAST_MSG_IN_GROUP }
  | none => md

/-- `WebSphereMQConnectionFactory._build_md`: populate a fresh MQMD
from the JMS attributes of the message, block by block in source
order. -/
def build_md (message : TextMessage) : Except JmsErr MD := do
  let md1 : MD := { Format := WMQ_MQFMT_RF_HEADER_2,
                    CodedCharSetId := WMQ_DEFAULT_CCSID,
                    Encoding := WMQ_DEFAULT_ENCODING }
  let md2 ← bmd_correl message md1
  let md3 ← bmd_delivery message md2
  let md6 := bmd_expiry message (bmd_reply_to message (bmd_priority message md3))
  let md8 ← bmd_group_id message (bmd_group_seq message md6)
  Except.ok (bmd_last_msg message (bmd_feedback message (bmd_reports message md8)))

/-- The post-put overwriting of JMS headers on the caller's message
(`send`, after `queue.put` succeeded): message id, priority,
correlation id, user and application identifiers, put date and time
with the derived timestamp, and the expiration made absolute by adding
the captured `now`.  `md` is the descriptor as the queue manager
returned it from the put. -/
def send_update_message (env : TimeEnv) (message : TextMessage) (md : MD)
    (now : Nat) : TextMessage :=
  let m1 := { message with
    jms_message_id := some (WMQ_ID_PREFIX ++ pyHexlify md.MsgId)
    jms_priority := some md.Priority
    jms_correlation_id := some (WMQ_ID_PREFIX ++ pyHexlify md.CorrelId)
    JMSXUserID := some md.UserIdentifier
    JMSXAppID := some md.PutApplName }
  let m2 :=
    if !md.PutDate.isEmpty && !md.PutTime.isEmpty then
      { m1 with
        jms_timestamp := get_jms_timestamp_from_md env (pyStrip md.PutDate) (pyStrip md.PutTime)
        JMS_IBM_PutDate := some (pyStrip md.PutDate)
        JMS_IBM_PutTime := some (pyStrip md.PutTime) }
    else m1
  match m2.jms_expiration with
  | some e => { m2 with jms_expiration := some (e + (now : Int)) }
  | none => m2

/-! ## Factory state machine

`WebSphereMQConnectionFactory` holds one connection, three queue-handle
caches and two flags.  The opaque pymqi queue objects are modelled as
handles (numbers); everything the transport would do is recorded in a
trace of `TransportCall`s and every externally supplied result comes
from a `TransportEnv`. -/

structure FactoryConfig where
  ssl : Bool := false
  ssl_cipher_spec : Option Str := none
  ssl_key_repository : Option Str := none
  cache_open_send_queues : Bool := true
  cache_open_receive_queues : Bool := true
  needs_mcd : Bool := true
  dynamic_queue_template : Str := "SYSTEM.DEFAULT.MODEL.QUEUE".data
deriving DecidableEq

structure FactoryState where
  config : FactoryConfig := {}
  is_connected : Bool := false
  disconnecting : Bool := false
  open_send_queues_cache : List (Str × Nat) := []
  open_receive_queues_cache : List (Str × Nat) := []
  open_dynamic_queues_cache : List (Str × Nat) := []
  next_handle : Nat := 0
deriving DecidableEq

inductive TransportCall where
  | connect
  | openQueue (name : Str)
  | put (handle : Nat) (body : Str)
  | get (handle : Nat) (wait_interval : Int)
  | closeQueue (handle : Nat)
  | disconnect
deriving DecidableEq

/-- Everything the transport and the clock supply during one call. -/
structure TransportEnv where
  timeEnv : TimeEnv := { mktime := fun _ _ _ _ _ _ => 0, altzone := 0 }
  connect_ok : Bool := true
  put_result : MD → Except Unit MD := fun md => Except.ok md
  get_result : Except Int (MD × Str) := Except.error CMQC.MQRC_NO_MSG_AVAILABLE
  dynamic_queue_object_name : Str := []
  now : Nat := 0
  disconnect_ok : Bool := true

/-- `_connect`: a no-op when connected; raises `JMSException` when only
one of the two SSL settings is supplied; otherwise attempts the
transport connection. -/
def connectStep (env : TransportEnv) (st : FactoryState) :
    FactoryState × List TransportCall × Option JmsErr :=
  if st.is_connected then (st, [], none)
  else if st.config.ssl &&
      !(truthyOptStr st.config.ssl_cipher_spec &&
        truthyOptStr st.config.ssl_key_repository) then
    (st, [], some JmsErr.jms)
  else if env.connect_ok then
    ({ st with is_connected := true }, [TransportCall.connect], none)
  else (st, [TransportCall.connect], some JmsErr.wmq)

/-- `_get_queue_from_cache`: return the cached handle or open and
insert a new one. -/
def get_queue_from_cache (cache : List (Str × Nat)) (next : Nat)
    (destination : Str) : List (Str × Nat) × Nat × Nat × List TransportCall :=
  match cache.lookup destination with
  | some q => (cache, next, q, [])
  | none => (cache ++ [(destination, next)], next + 1, next,
      [TransportCall.openQueue destination])

/-- Removal from one cache (`dict.pop(key, None)`). -/
def dremove (cache : List (Str × Nat)) (k : Str) : List (Str × Nat) :=
  cache.filter (fun kv => kv.1 != k)

/-- `send`: short-circuits while disconnecting, connects when needed,
strips the destination, builds descriptor and header, puts the body
and finally overwrites the transport-assigned headers on the message
(its result models the in-place mutation of the caller's message;
the Python method itself returns None). -/
def sendOp (env : TransportEnv) (st : FactoryState) (message : TextMessage)
    (destination : Str) :
    FactoryState × List TransportCall × Except JmsErr (Option TextMessage) :=
  if st.disconnecting then (st, [], Except.ok none)
  else
    match connectStep env st with
    | (st1, calls1, some e) => (st1, calls1, Except.error e)
    | (st1, calls1, none) =>
      let dest := strip_prefixes_from_destination destination
      match build_md message with
      | Except.error e => (st1, calls1, Except.error e)
      | Except.ok md =>
        let body := send_body st1.config.needs_mcd message dest env.now
        let (cache2, next2, queue, calls2) :=
          if st1.config.cache_open_send_queues then
            get_queue_from_cache st1.open_send_queues_cache st1.next_handle dest
          else
            (st1.open_send_queues_cache, st1.next_handle + 1, st1.next_handle,
             [TransportCall.openQueue dest])
        let st2 := { st1 with open_send_queues_cache := cache2, next_handle := next2 }
        match env.put_result md with
        | Except.error _ =>
          (st2, calls1 ++ calls2 ++ [TransportCall.put queue body], Except.error JmsErr.wmq)
        | Except.ok mdPut =>
          let closeCalls :=
            if st1.config.cache_open_send_queues then []
            else [TransportCall.closeQueue queue]
          (st2, calls1 ++ calls2 ++ [TransportCall.put queue body] ++ closeCalls,
           Except.ok (some (send_update_message env.timeEnv message mdPut env.now)))

/-- `receive`: short-circuits while disconnecting; the destination is
used unstripped; an `MQRC_NO_MSG_AVAILABLE` reason becomes
`NoMessageAvailableException`, any other native error a
`WebSphereMQJMSException`; a received message is decoded with
`_build_text_message`. -/
def receiveOp (env : TransportEnv) (st : FactoryState) (destination : Str)
    (wait_interval : Int) :
    FactoryState × List TransportCall × Except JmsErr (Option TextMessage) :=
  if st.disconnecting then (st, [], Except.ok none)
  else
    match connectStep env st with
    | (st1, calls1, some e) => (st1, calls1, Except.error e)
    | (st1, calls1, none) =>
      let (cache2, next2, queue, calls2) :=
        if st1.config.cache_open_receive_queues then
          get_queue_from_cache st1.open_receive_queues_cache st1.next_handle destination
        else
          (st1.open_receive_queues_cache, st1.next_handle + 1, st1.next_handle,
           [TransportCall.openQueue destination])
      let st2 := { st1 with open_receive_queues_cache := cache2, next_handle := next2 }
      let calls := calls1 ++ calls2 ++ [TransportCall.get queue wait_interval]
      match env.get_result with
      | Except.error reason =>
        if reason = CMQC.MQRC_NO_MSG_AVAILABLE then
          (st2, calls, Except.error JmsErr.noMessage)
        else (st2, calls, Except.error JmsErr.wmq)
      | Except.ok (md, raw) =>
        match build_text_message env.timeEnv st2.config.needs_mcd md raw with
        | Except.ok tm => (st2, calls, Except.ok (some tm))
        | Except.error e => (st2, calls, Except.error e)

/-- `open_dynamic_queue`: short-circuits while disconnecting; opens a
queue from the model-queue template, caches it under the
transport-assigned (stripped) object name and returns that name. -/
def openDynamicQueueOp (env : TransportEnv) (st : FactoryState) :
    FactoryState × List TransportCall × Except JmsErr (Option Str) :=
  if st.disconnecting then (st, [], Except.ok none)
  else
    match connectStep env st with
    | (st1, calls1, some e) => (st1, calls1, Except.error e)
    | (st1, calls1, none) =>
      let dynamic_queue_name := pyStrip env.dynamic_queue_object_name
      let handle := st1.next_handle
      let st2 := { st1 with
        next_handle := handle + 1,
        open_dynamic_queues_cache :=
          dremove st1.open_dynamic_queues_cache dynamic_queue_name ++
            [(dynamic_queue_name, handle)] }
      (st2, calls1 ++ [TransportCall.openQueue st1.config.dynamic_queue_template],
       Except.ok (some dynamic_queue_name))

/-- `close_dynamic_queue`: short-circuits while disconnecting or when
not connected; otherwise looks the name up with a plain subscript
(KeyError when absent), closes the handle and pops the name from all
three caches. -/
def closeDynamicQueueOp (st : FactoryState) (dynamic_queue_name : Str) :
    FactoryState × List TransportCall × Except JmsErr Unit :=
  if st.disconnecting then (st, [], Except.ok ())
  else if !st.is_connected then (st, [], Except.ok ())
  else
    match st.open_dynamic_queues_cache.lookup dynamic_queue_name with
    | none => (st, [], Except.error JmsErr.keyError)
    | some q =>
      ({ st with
         open_dynamic_queues_cache := dremove st.open_dynamic_queues_cache dynamic_queue_name,
         open_send_queues_cache := dremove st.open_send_queues_cache dynamic_queue_name,
         open_receive_queues_cache := dremove st.open_receive_queues_cache dynamic_queue_name },
       [TransportCall.closeQueue q], Except.ok ())

/-- `destroy`: when connected, set the disconnecting flag, clear the
three caches and disconnect, then record the factory as disconnected;
both the cache clearing and the disconnect sit inside try/except blocks
whose failures are logged and swallowed, so destroy itself never
raises.  When not connected it does nothing. -/
def destroyOp (env : TransportEnv) (st : FactoryState) :
    FactoryState × List TransportCall × Except JmsErr Unit :=
  if st.is_connected then
    let st1 := { st with
      disconnecting := true,
      open_send_queues_cache := [],
      open_receive_queues_cache := [],
      open_dynamic_queues_cache := [] }
    -- mgr.disconnect() may fail; the exception is caught and only logged
    let _disconnect_outcome := env.disconnect_ok
    ({ st1 with is_connected := false }, [TransportCall.disconnect], Except.ok ())
  else (st, [], Except.ok ())

inductive Op where
  | send (message : TextMessage) (destination : Str)
  | receive (destination : Str) (wait_interval : Int)
  | openDynamicQueue
  | closeDynamicQueue (name : Str)
  | destroy
deriving DecidableEq

inductive OpOut where
  | sentMessage (m : TextMessage)
  | received (m : TextMessage)
  | dynamicQueueName (s : Str)
  | unitResult
deriving DecidableEq

/-- One public call on the factory. -/
def step (env : TransportEnv) (st : FactoryState) :
    Op → FactoryState × List TransportCall × Except JmsErr (Option OpOut)
  | Op.send m d =>
    let (st2, calls, r) := sendOp env st m d
    (st2, calls, r.map (Option.map OpOut.sentMessage))
  | Op.receive d w =>
    let (st2, calls, r) := receiveOp env st d w
    (st2, calls, r.map (Option.map OpOut.received))
  | Op.openDynamicQueue =>
    let (st2, calls, r) := openDynamicQueueOp env st
    (st2, calls, r.map (Option.map OpOut.dynamicQueueName))
  | Op.closeDynamicQueue n =>
    let (st2, calls, r) := closeDynamicQueueOp st n
    (st2, calls, r.map (fun _ => some OpOut.unitResult))
  | Op.destroy =>
    let (st2, calls, r) := destroyOp env st
    (st2, calls, r.map (fun _ => some OpOut.unitResult))

/-- Run a sequence of calls, keeping only the final state. -/
def runOps (env : TransportEnv) : FactoryState → List (Op) → FactoryState
  | st, [] => st
  | st, op :: ops => runOps env (step env st op).1 ops

/-! ## Destination normalization -/

theorem removeFirstSub_pfx (p s : Str) (hp : p ≠ []) :
    removeFirstSub (p ++ s) p = s := by
  obtain ⟨a, p2, rfl⟩ : ∃ a p2, p = a :: p2 := by
    cases p with
    | nil => exact absurd rfl hp
    | cons a b => exact ⟨a, b, rfl⟩
  unfold removeFirstSub
  simp only [List.cons_append, List.length_cons]
  simp only [removeFirstSubF]
  rw [if_pos (by
    rw [List.isPrefixOf_iff_prefix]
    exact List.prefix_append _ s)]
  simp only [List.length_cons]
  have := List.drop_left (a :: p2) s
  simp only [List.length_cons, List.cons_append] at this
  exact this

theorem splitSlashAux_ne_nil (s : Str) : ∀ acc, splitSlashAux s acc ≠ [] := by
  induction s with
  | nil => intro acc; simp [splitSlashAux]
  | cons c rest ih =>
    intro acc
    by_cases h : c = '/'
    · simp [splitSlashAux, h]
    · simp only [splitSlashAux, if_neg h]
      exact ih (c :: acc)

theorem joinSlash_splitSlashAux (s : Str) :
    ∀ acc, joinSlash (splitSlashAux s acc) = acc.reverse ++ s := by
  induction s with
  | nil => intro acc; simp [splitSlashAux, joinSlash]
  | cons c rest ih =>
    intro acc
    by_cases h : c = '/'
    · subst h
      simp only [splitSlashAux, if_pos rfl]
      obtain ⟨y, ys, hys⟩ : ∃ y ys, splitSlashAux rest [] = y :: ys := by
        cases hx : splitSlashAux rest [] with
        | nil => exact absurd hx (splitSlashAux_ne_nil rest [])
        | cons y ys => exact ⟨y, ys, rfl⟩
      rw [hys]
      have := ih ([] : Str)
      rw [hys] at this
      simp only [List.reverse_nil, List.nil_append] at this
      show joinSlash (acc.reverse :: y :: ys) = acc.reverse ++ '/' :: rest
      rw [show joinSlash (acc.reverse :: y :: ys) =
        acc.reverse ++ '/' :: joinSlash (y :: ys) from rfl]
      rw [this]
    · simp only [splitSlashAux, if_neg h]
      rw [ih (c :: acc)]
      simp

theorem joinSlash_splitSlash (s : Str) : joinSlash (splitSlash s) = s := by
  have := joinSlash_splitSlashAux s []
  simpa [splitSlash] using this

theorem splitSlashAux_append_sep (n : Str) :
    ∀ (mgr : Str), '/' ∉ mgr → ∀ acc,
      splitSlashAux (mgr ++ '/' :: n) acc = (acc.reverse ++ mgr) :: splitSlash n := by
  intro mgr
  induction mgr with
  | nil =>
    intro _ acc
    simp [splitSlashAux, splitSlash]
  | cons c rest ih =>
    intro hm acc
    have hc : c ≠ '/' := by
      intro hx
      exact hm (by simp [hx])
    simp only [List.cons_append, splitSlashAux, if_neg hc, List.append_eq]
    rw [ih (by intro hx; exact hm (by simp [hx])) (c :: acc)]
    simp

/-- C5: for every name N (possibly containing a slash), the
destination strings queue:///N and queue://MGR/N (for a manager
containing no slash) and the bare name N (one that does not itself
carry the queue:// scheme) all normalize to the same internal
destination key N. -/
theorem C5_destination_normalization (name mgr : Str)
    (hmgr : '/' ∉ mgr) (hbare : "queue://".data.isPrefixOf name = false) :
    strip_prefixes_from_destination ("queue:///".data ++ name) = name ∧
    strip_prefixes_from_destination ("queue://".data ++ (mgr ++ '/' :: name)) = name ∧
    strip_prefixes_from_destination name = name := by
  refine ⟨?_, ?_, ?_⟩
  · unfold strip_prefixes_from_destination
    rw [if_pos (by
      rw [List.isPrefixOf_iff_prefix]
      exact List.prefix_append _ name)]
    exact removeFirstSub_pfx _ name (by decide)
  · cases mgr with
    | nil =>
      have he : "queue://".data ++ (([] : Str) ++ '/' :: name) =
          "queue:///".data ++ name := rfl
      rw [he]
      unfold strip_prefixes_from_destination
      rw [if_pos (by
        rw [List.isPrefixOf_iff_prefix]
        exact List.prefix_append _ name)]
      exact removeFirstSub_pfx _ name (by decide)
    | cons mh mt =>
      have hmh : mh ≠ '/' := by
        intro hx
        exact hmgr (by simp [hx])
      unfold strip_prefixes_from_destination
      rw [if_neg (by
        intro hpre
        rw [List.isPrefixOf_iff_prefix] at hpre
        obtain ⟨t, ht⟩ := hpre
        have : mh = '/' := by
          have := congrArg (fun l => l.get? 8) ht
          simpa using this.symm
        exact hmh this)]
      rw [if_pos (by
        rw [List.isPrefixOf_iff_prefix]
        exact List.prefix_append _ _)]
      rw [removeFirstSub_pfx _ _ (by decide)]
      rw [show splitSlash ((mh :: mt) ++ '/' :: name) =
        splitSlashAux ((mh :: mt) ++ '/' :: name) [] from rfl]
      rw [splitSlashAux_append_sep name (mh :: mt) hmgr []]
      simp only [List.reverse_nil, List.nil_append, List.drop_succ_cons,
        List.drop_zero]
      exact joinSlash_splitSlash name
  · unfold strip_prefixes_from_destination
    have h3 : "queue:///".data.isPrefixOf name = false := by
      cases hx : "queue:///".data.isPrefixOf name
      · rfl
      · exfalso
        rw [List.isPrefixOf_iff_prefix] at hx
        have h8 : ("queue://".data : Str) <+: "queue:///".data := by decide
        have : ("queue://".data : Str) <+: name := h8.trans hx
        rw [← List.isPrefixOf_iff_prefix] at this
        rw [this] at hbare
        exact absurd hbare (by decide)
    rw [if_neg (by rw [h3]; exact fun h => absurd h (by decide)),
        if_neg (by rw [hbare]; exact fun h => absurd h (by decide))]

/-- Witness for C5 at concrete inputs. -/
theorem C5_witness :
    strip_prefixes_from_destination ("queue:///".data ++ "A/B".data) = "A/B".data ∧
    strip_prefixes_from_destination ("queue://".data ++ ("MGR".data ++ '/' :: "A/B".data)) = "A/B".data ∧
    strip_prefixes_from_destination "A/B".data = "A/B".data :=
  C5_destination_normalization "A/B".data "MGR".data (by decide) (by decide)


/-! ## Expiry clipping -/

theorem except_bind_ok {α β : Type} {x : Except JmsErr α} {f : α → Except JmsErr β}
    {b : β} (h : x >>= f = Except.ok b) :
    ∃ a, x = Except.ok a ∧ f a = Except.ok b := by
  cases x with
  | error e => exact absurd h (fun hc => Except.noConfusion hc)
  | ok a => exact ⟨a, rfl, h⟩

theorem bmd_last_msg_Expiry (m : TextMessage) (md : MD) :
    (bmd_last_msg m md).Expiry = md.Expiry := by
  unfold bmd_last_msg
  cases m.JMS_IBM_Last_Msg_In_Group <;> rfl

theorem bmd_feedback_Expiry (m : TextMessage) (md : MD) :
    (bmd_feedback m md).Expiry = md.Expiry := by
  unfold bmd_feedback
  cases m.JMS_IBM_Feedback <;> rfl

theorem foldl_report_Expiry (m : TextMessage) :
    ∀ (l : List Str) (md : MD),
      (l.foldl (fun md name =>
        match getattrReport m name with
        | some v => { md with Report := md.Report ||| v }
        | none => md) md).Expiry = md.Expiry := by
  intro l
  induction l with
  | nil => intro md; rfl
  | cons n rest ih =>
    intro md
    simp only [List.foldl_cons]
    rw [ih]
    cases getattrReport m n <;> rfl

theorem bmd_reports_Expiry (m : TextMessage) (md : MD) :
    (bmd_reports m md).Expiry = md.Expiry :=
  foldl_report_Expiry m report_jms_names md

theorem bmd_group_id_Expiry (m : TextMessage) (md md' : MD)
    (h : bmd_group_id m md = Except.ok md') : md'.Expiry = md.Expiry := by
  unfold bmd_group_id at h
  cases hg : m.JMSXGroupID with
  | none =>
    rw [hg] at h
    injection h with h
    rw [← h]
  | some gid =>
    rw [hg] at h
    dsimp only at h
    split at h
    · cases hu : unhexlify_wmq_id gid with
      | none =>
        rw [hu] at h
        exact Except.noConfusion h
      | some b =>
        rw [hu] at h
        injection h with h
        rw [← h]
    · injection h with h
      rw [← h]

theorem bmd_group_seq_Expiry (m : TextMessage) (md : MD) :
    (bmd_group_seq m md).Expiry = md.Expiry := by
  unfold bmd_group_seq
  cases m.JMSXGroupSeq <;> rfl

theorem bmd_expiry_val (m : TextMessage) (mdv : MD) (exp : Int)
    (hexp : m.jms_expiration = some exp) (hne : exp ≠ 0) :
    (bmd_expiry m mdv).Expiry =
      if Int.fdiv exp 1000 ≥ 214748365 then CMQC.MQEI_UNLIMITED
      else Int.fdiv exp 10 := by
  unfold bmd_expiry
  rw [hexp]
  simp only [truthyOptInt, Option.getD_some]
  rw [if_pos (by simp [hne] : (exp != 0) = true)]
  by_cases hc : Int.fdiv exp 1000 ≥ 214748365
  · simp only [if_pos hc]
  · simp only [if_neg hc]

/-- C4, amended: for a message with a set non-zero positive
jms_expiration exp (milliseconds), `_build_md` stores the unlimited
sentinel exactly when the Python 2 floor division `exp / 1000` reaches
214748365 (because `exp / 1000 > 214748364.7` is a floor-quotient
versus float comparison, NOT a comparison of the exact lifetime
against 214748364.7 seconds), and otherwise stores `exp / 10`
centiseconds, again by floor division. -/
theorem C4_expiry_clipping (message : TextMessage) (exp : Int) (md : MD)
    (hexp : message.jms_expiration = some exp) (hpos : 0 < exp)
    (hok : build_md message = Except.ok md) :
    (md.Expiry = CMQC.MQEI_UNLIMITED ↔ Int.fdiv exp 1000 ≥ 214748365) ∧
    (Int.fdiv exp 1000 < 214748365 → md.Expiry = Int.fdiv exp 10) := by
  unfold build_md at hok
  obtain ⟨md2, h2, hok⟩ := except_bind_ok hok
  obtain ⟨md3, h3, hok⟩ := except_bind_ok hok
  obtain ⟨md8, h8, hok⟩ := except_bind_ok hok
  injection hok with hok
  have hpres : md.Expiry =
      (bmd_expiry message (bmd_reply_to message (bmd_priority message md3))).Expiry := by
    rw [← hok, bmd_last_msg_Expiry, bmd_feedback_Expiry, bmd_reports_Expiry,
        bmd_group_id_Expiry message _ md8 h8, bmd_group_seq_Expiry]
  rw [hpres, bmd_expiry_val message _ exp hexp (by omega)]
  by_cases hc : Int.fdiv exp 1000 ≥ 214748365
  · rw [if_pos hc]
    exact ⟨iff_of_true rfl hc, fun hlt => absurd hc (not_le.mpr hlt)⟩
  · rw [if_neg hc]
    refine ⟨iff_of_false ?_ hc, fun _ => rfl⟩
    intro hq
    have hge : (0:Int) ≤ Int.fdiv exp 10 :=
      Int.fdiv_nonneg (by omega) (by omega)
    rw [hq] at hge
    exact absurd hge (by decide)

/-- C4 counterexample to the claim as stated: at jms_expiration =
214748364800 ms the requested lifetime is 214748364.8 seconds, which
exceeds the stated maximum of 214748364.7 seconds (214748364700 ms),
yet `_build_md` does not substitute the unlimited sentinel: the floor
quotient 214748364800 / 1000 = 214748364 stays below 214748365, so the
code stores the numeric value 21474836480 centiseconds. -/
theorem C4_counterexample :
    (214748364800 : Int) > 214748364700 ∧
    ((build_md { jms_expiration := some 214748364800 }).toOption.getD {}).Expiry
      = 21474836480 ∧
    ((build_md { jms_expiration := some 214748364800 }).toOption.getD {}).Expiry
      ≠ CMQC.MQEI_UNLIMITED := by
  refine ⟨by decide, by decide, by decide⟩

/-- Witness for C4 at a concrete message. -/
theorem C4_witness :
    ({ jms_expiration := some 1000 } : TextMessage).jms_expiration = some 1000 ∧
    (0:Int) < 1000 ∧
    build_md { jms_expiration := some 1000 } =
      Except.ok ((build_md { jms_expiration := some 1000 }).toOption.getD {}) ∧
    ((((build_md { jms_expiration := some 1000 }).toOption.getD {}).Expiry
        = CMQC.MQEI_UNLIMITED ↔ Int.fdiv 1000 1000 ≥ 214748365) ∧
     (Int.fdiv 1000 1000 < 214748365 →
      ((build_md { jms_expiration := some 1000 }).toOption.getD {}).Expiry
        = Int.fdiv 1000 10)) :=
  ⟨by decide, by decide, by rfl,
   C4_expiry_clipping { jms_expiration := some 1000 } 1000 _
     (by decide) (by decide) (by rfl)⟩


/-! ## Teardown behaviour -/

/-- C9: `destroy()` never raises (disconnect failures are swallowed),
and calling it twice in a row is idempotent: the second call finds the
factory disconnected, changes nothing, touches the transport not at
all and again returns without raising. -/
theorem C9_destroy_idempotent (env env2 : TransportEnv) (st : FactoryState) :
    (destroyOp env st).2.2 = Except.ok () ∧
    destroyOp env2 (destroyOp env st).1 = ((destroyOp env st).1, [], Except.ok ()) := by
  by_cases hc : st.is_connected = true
  · have h1 : destroyOp env st =
      ({ st with disconnecting := true, open_send_queues_cache := [], open_receive_queues_cache := [], open_dynamic_queues_cache := [], is_connected := false }, [TransportCall.disconnect], Except.ok ()) := by
      unfold destroyOp
      rw [if_pos hc]
    rw [h1]
    refine ⟨rfl, ?_⟩
    unfold destroyOp
    rw [if_neg (by simp)]
  · have h1 : destroyOp env st = (st, [], Except.ok ()) := by
      unfold destroyOp
      rw [if_neg hc]
    rw [h1]
    exact ⟨rfl, by unfold destroyOp; rw [if_neg hc]⟩

/-- The result each public call produces on a factory whose
disconnecting flag is set (and, for `destroy`, already disconnected):
`send`, `receive` and `open_dynamic_queue` return None, the two
close-style calls return unit. -/
def disconnectedOut : Op → Except JmsErr (Option OpOut)
  | Op.send _ _ => Except.ok none
  | Op.receive _ _ => Except.ok none
  | Op.openDynamicQueue => Except.ok none
  | Op.closeDynamicQueue _ => Except.ok (some OpOut.unitResult)
  | Op.destroy => Except.ok (some OpOut.unitResult)

theorem step_disconnected (env2 : TransportEnv) (st2 : FactoryState) (op : Op)
    (hd : st2.disconnecting = true) (hc : st2.is_connected = false) :
    step env2 st2 op = (st2, [], disconnectedOut op) := by
  cases op with
  | send m d => simp [step, sendOp, hd, disconnectedOut, Except.map]
  | receive d w => simp [step, receiveOp, hd, disconnectedOut, Except.map]
  | openDynamicQueue => simp [step, openDynamicQueueOp, hd, disconnectedOut, Except.map]
  | closeDynamicQueue n => simp [step, closeDynamicQueueOp, hd, disconnectedOut, Except.map]
  | destroy => simp [step, destroyOp, hc, disconnectedOut, Except.map]

theorem runOps_disconnected (env2 : TransportEnv) :
    ∀ (ops : List Op) (st2 : FactoryState),
      st2.disconnecting = true → st2.is_connected = false →
      runOps env2 st2 ops = st2 := by
  intro ops
  induction ops with
  | nil => intro st2 _ _; rfl
  | cons op rest ih =>
    intro st2 hd hc
    show runOps env2 (step env2 st2 op).1 rest = st2
    rw [step_disconnected env2 st2 op hd hc]
    exact ih st2 hd hc

/-- C10: after `destroy()` on a connected factory the disconnecting
flag is set and never reset: any subsequent sequence of public calls
leaves the state exactly as destroy left it, and the next call —
whatever it is — makes no transport calls and short-circuits, with
`send`, `receive` and `open_dynamic_queue` returning None
immediately. -/
theorem C10_destroy_permanent (env env2 : TransportEnv) (st : FactoryState)
    (ops : List Op) (op2 : Op) (hconn : st.is_connected = true) :
    (destroyOp env st).1.disconnecting = true ∧
    (destroyOp env st).1.is_connected = false ∧
    runOps env2 (destroyOp env st).1 ops = (destroyOp env st).1 ∧
    step env2 (runOps env2 (destroyOp env st).1 ops) op2 =
      ((destroyOp env st).1, [], disconnectedOut op2) := by
  have h1 : destroyOp env st =
      ({ st with disconnecting := true, open_send_queues_cache := [], open_receive_queues_cache := [], open_dynamic_queues_cache := [], is_connected := false }, [TransportCall.disconnect], Except.ok ()) := by
    unfold destroyOp
    rw [if_pos hconn]
  rw [h1]
  refine ⟨rfl, rfl, ?_, ?_⟩
  · exact runOps_disconnected env2 ops _ rfl rfl
  · rw [runOps_disconnected env2 ops _ rfl rfl]
    exact step_disconnected env2 _ op2 rfl rfl

/-- Witness for C10 at a concrete connected factory, call sequence and
follow-up call. -/
theorem C10_witness :
    ({ is_connected := true } : FactoryState).is_connected = true ∧
    ((destroyOp {} { is_connected := true }).1.disconnecting = true ∧
     (destroyOp {} { is_connected := true }).1.is_connected = false ∧
     runOps {} (destroyOp {} { is_connected := true }).1 [Op.openDynamicQueue]
       = (destroyOp {} { is_connected := true }).1 ∧
     step {} (runOps {} (destroyOp {} { is_connected := true }).1 [Op.openDynamicQueue])
         (Op.send {} []) =
       ((destroyOp {} { is_connected := true }).1, [], disconnectedOut (Op.send {} []))) :=
  ⟨by decide,
   C10_destroy_permanent {} {} { is_connected := true } [Op.openDynamicQueue]
     (Op.send {} []) (by decide)⟩

/-- C6: contrary to the claim, `close_dynamic_queue` does NOT tolerate
absence on a connected factory: the name is first read with a plain
dictionary subscript on the dynamic-queue cache, so a name that is
missing there — even one still cached as a regular send queue, or one
already closed by a first call — raises a KeyError before the three
tolerant pops run. -/
theorem C6_close_absent_raises :
    (closeDynamicQueueOp { is_connected := true } "Q".data).2.2
      = Except.error JmsErr.keyError ∧
    (closeDynamicQueueOp
        { is_connected := true,
          open_send_queues_cache := [("Q".data, 7)] } "Q".data).2.2
      = Except.error JmsErr.keyError ∧
    (closeDynamicQueueOp
        { is_connected := true,
          open_dynamic_queues_cache := [("Q".data, 5)] } "Q".data).2.2
      = Except.ok () ∧
    (closeDynamicQueueOp
        (closeDynamicQueueOp
          { is_connected := true,
            open_dynamic_queues_cache := [("Q".data, 5)] } "Q".data).1
        "Q".data).2.2
      = Except.error JmsErr.keyError := by
  refine ⟨by rfl, by rfl, by rfl, by rfl⟩


/-! ## Persistence mapping on decode -/

theorem btm_delivery_mode_ok (md : MD) (dm : Int)
    (h : btm_delivery_mode md = Except.ok dm) :
    (md.Persistence = CMQC.MQPER_NOT_PERSISTENT ∨
     md.Persistence = CMQC.MQPER_PERSISTENT ∨
     md.Persistence = CMQC.MQPER_PERSISTENCE_AS_Q_DEF) ∧
    dm = (if md.Persistence = CMQC.MQPER_NOT_PERSISTENT
          then DELIVERY_MODE_NON_PERSISTENT else DELIVERY_MODE_PERSISTENT) := by
  unfold btm_delivery_mode at h
  split at h
  · next hp =>
    injection h with h
    exact ⟨Or.inl hp, by rw [← h, if_pos hp]⟩
  · next hp =>
    split at h
    · next hq =>
      injection h with h
      refine ⟨?_, by rw [← h, if_neg hp]⟩
      cases hq with
      | inl h1 => exact Or.inr (Or.inl h1)
      | inr h2 => exact Or.inr (Or.inr h2)
    · exact Except.noConfusion h

theorem btm_md_fields_dm (env : TimeEnv) (md : MD) (tm3 tm5 : TextMessage)
    (h : btm_md_fields env md tm3 = Except.ok tm5) :
    tm5.jms_delivery_mode = tm3.jms_delivery_mode := by
  unfold btm_md_fields at h
  cases hts : get_jms_timestamp_from_md env (pyStrip md.PutDate) (pyStrip md.PutTime) with
  | none =>
    rw [hts] at h
    exact Except.noConfusion h
  | some t =>
    rw [hts] at h
    injection h with h
    rw [← h]
    dsimp only
    split <;> rfl

/-- C7: decoding maps native persistence to the delivery-mode enum and
fails closed: when a decode succeeds the descriptor's persistence was
one of NOT_PERSISTENT, PERSISTENT or PERSISTENCE_AS_Q_DEF and the
message's jms_delivery_mode is the non-persistent enum value exactly
for NOT_PERSISTENT and the persistent one for the other two; and a
decode of any descriptor with an unrecognized persistence never
returns a message at all (the mapping raises
WebSphereMQJMSException). -/
theorem C7_persistence_mapping (env env2 : TimeEnv) (needs_mcd needs2 : Bool)
    (md md2 : MD) (message msg2 : Str) (tm tm2 : TextMessage)
    (hok : build_text_message env needs_mcd md message = Except.ok tm)
    (hbad0 : md2.Persistence ≠ CMQC.MQPER_NOT_PERSISTENT)
    (hbad1 : md2.Persistence ≠ CMQC.MQPER_PERSISTENT)
    (hbad2 : md2.Persistence ≠ CMQC.MQPER_PERSISTENCE_AS_Q_DEF) :
    ((md.Persistence = CMQC.MQPER_NOT_PERSISTENT ∨
      md.Persistence = CMQC.MQPER_PERSISTENT ∨
      md.Persistence = CMQC.MQPER_PERSISTENCE_AS_Q_DEF) ∧
     tm.jms_delivery_mode =
       some (if md.Persistence = CMQC.MQPER_NOT_PERSISTENT
             then DELIVERY_MODE_NON_PERSISTENT else DELIVERY_MODE_PERSISTENT)) ∧
    build_text_message env2 needs2 md2 msg2 ≠ Except.ok tm2 := by
  constructor
  · unfold build_text_message at hok
    cases hbf : build_folders_and_payload needs_mcd message with
    | none => rw [hbf] at hok; exact Except.noConfusion hok
    | some fp =>
    rw [hbf] at hok
    obtain ⟨fp2, hfp2, hok⟩ := except_bind_ok hok
    obtain ⟨tm2x, htm2, hok⟩ := except_bind_ok hok
    obtain ⟨dm, hdm, hok⟩ := except_bind_ok hok
    obtain ⟨tm5, htm5, hok⟩ := except_bind_ok hok
    injection hok with hok
    obtain ⟨hmem, hdmv⟩ := btm_delivery_mode_ok md dm hdm
    have hpres := btm_md_fields_dm env md _ tm5 htm5
    refine ⟨hmem, ?_⟩
    rw [← hok]
    have hthis : tm5.jms_delivery_mode = some dm := by rw [hpres]
    rw [hdmv] at hthis
    split
    · show tm5.jms_delivery_mode = _
      exact hthis
    · exact hthis
  · intro heq
    unfold build_text_message at heq
    cases hbf : build_folders_and_payload needs2 msg2 with
    | none => rw [hbf] at heq; exact Except.noConfusion heq
    | some fp =>
    rw [hbf] at heq
    obtain ⟨fp2, hfp2, heq⟩ := except_bind_ok heq
    obtain ⟨tmx, htmx, heq⟩ := except_bind_ok heq
    obtain ⟨dm, hdm, heq⟩ := except_bind_ok heq
    unfold btm_delivery_mode at hdm
    rw [if_neg hbad0, if_neg (by
      intro hq
      cases hq with
      | inl a => exact hbad1 a
      | inr b => exact hbad2 b)] at hdm
    exact Except.noConfusion hdm

/-- A native descriptor whose persistence and put timestamp allow a
successful decode. -/
def wMd7 : MD :=
  { Persistence := CMQC.MQPER_PERSISTENT, PutDate := "20100101".data,
    PutTime := "12000000".data }

/-- A clock environment for decode witnesses. -/
def wEnv7 : TimeEnv := ⟨fun _ _ _ _ _ _ => 0, 0⟩

/-- A concrete wire message: the header an empty message produces. -/
def wMsg7 : Str := build_header true {} "Q".data 0

set_option maxRecDepth 20000 in
/-- Witness for C7: a concrete successful decode with persistence
PERSISTENT, against a descriptor with the unrecognized persistence
5. -/
theorem C7_witness :
    build_text_message wEnv7 true wMd7 wMsg7 =
      Except.ok ((build_text_message wEnv7 true wMd7 wMsg7).toOption.getD {}) ∧
    ({ Persistence := 5 } : MD).Persistence ≠ CMQC.MQPER_NOT_PERSISTENT ∧
    ({ Persistence := 5 } : MD).Persistence ≠ CMQC.MQPER_PERSISTENT ∧
    ({ Persistence := 5 } : MD).Persistence ≠ CMQC.MQPER_PERSISTENCE_AS_Q_DEF ∧
    (((wMd7.Persistence = CMQC.MQPER_NOT_PERSISTENT ∨
       wMd7.Persistence = CMQC.MQPER_PERSISTENT ∨
       wMd7.Persistence = CMQC.MQPER_PERSISTENCE_AS_Q_DEF) ∧
      ((build_text_message wEnv7 true wMd7 wMsg7).toOption.getD {}).jms_delivery_mode =
        some (if wMd7.Persistence = CMQC.MQPER_NOT_PERSISTENT
              then DELIVERY_MODE_NON_PERSISTENT else DELIVERY_MODE_PERSISTENT)) ∧
     build_text_message wEnv7 true { Persistence := 5 } [] ≠ Except.ok {}) :=
  ⟨by rfl, by decide, by decide, by decide,
   C7_persistence_mapping wEnv7 wEnv7 true true wMd7 { Persistence := 5 }
     wMsg7 [] ((build_text_message wEnv7 true wMd7 wMsg7).toOption.getD {}) {}
     (by rfl) (by decide) (by decide) (by decide)⟩


/-! ## Identifier rendering -/

/-- A lowercase hexadecimal digit. -/
def isLowerHex (c : Char) : Bool :=
  ('0' ≤ c && c ≤ '9') || ('a' ≤ c && c ≤ 'f')

theorem digitChar_lower (n : Nat) (h : n < 16) :
    isLowerHex (Nat.digitChar n) = true := by
  interval_cases n <;> decide

theorem pyHexlify_lower (s : Str) : (pyHexlify s).all isLowerHex = true := by
  induction s with
  | nil => rfl
  | cons c rest ih =>
    rw [show pyHexlify (c :: rest) =
      [Nat.digitChar (c.toNat / 16 % 16), Nat.digitChar (c.toNat % 16)] ++
        pyHexlify rest from rfl]
    rw [List.all_append, ih]
    simp only [List.all_cons, List.all_nil, Bool.and_true]
    rw [digitChar_lower _ (Nat.mod_lt _ (by omega)),
        digitChar_lower _ (Nat.mod_lt _ (by omega))]
    rfl

theorem btm_md_fields_msgid (env : TimeEnv) (md : MD) (tm3 tm5 : TextMessage)
    (h : btm_md_fields env md tm3 = Except.ok tm5) :
    tm5.jms_message_id = some (WMQ_ID_PREFIX ++ pyHexlify md.MsgId) := by
  unfold btm_md_fields at h
  cases hts : get_jms_timestamp_from_md env (pyStrip md.PutDate) (pyStrip md.PutTime) with
  | none =>
    rw [hts] at h
    exact Except.noConfusion h
  | some t =>
    rw [hts] at h
    injection h with h
    rw [← h]

/-- C8, amended: after every successful send the caller's message gets
jms_message_id = "ID:" followed by the hex of the descriptor's MsgId
and jms_correlation_id = "ID:" followed by the hex of CorrelId; on
every successful decode jms_message_id is rendered the same way; and
the hex rendering (binascii.hexlify) is LOWERCASE, not uppercase as
claimed.  (On decode the correlation id is NOT re-rendered — it is
taken verbatim from the Cid folder text; see the counterexample.) -/
theorem C8_id_rendering (env env2 : TimeEnv) (message : TextMessage)
    (md md2 : MD) (now : Nat) (needs2 : Bool) (msg2 : Str) (tm : TextMessage)
    (hok : build_text_message env2 needs2 md2 msg2 = Except.ok tm) :
    (send_update_message env message md now).jms_message_id
        = some (WMQ_ID_PREFIX ++ pyHexlify md.MsgId) ∧
    (send_update_message env message md now).jms_correlation_id
        = some (WMQ_ID_PREFIX ++ pyHexlify md.CorrelId) ∧
    tm.jms_message_id = some (WMQ_ID_PREFIX ++ pyHexlify md2.MsgId) ∧
    (pyHexlify md.MsgId).all isLowerHex = true ∧
    (pyHexlify md.CorrelId).all isLowerHex = true ∧
    (pyHexlify md2.MsgId).all isLowerHex = true := by
  refine ⟨?_, ?_, ?_, pyHexlify_lower _, pyHexlify_lower _, pyHexlify_lower _⟩
  · unfold send_update_message
    split <;> (dsimp only; split <;> rfl)
  · unfold send_update_message
    split <;> (dsimp only; split <;> rfl)
  · unfold build_text_message at hok
    cases hbf : build_folders_and_payload needs2 msg2 with
    | none => rw [hbf] at hok; exact Except.noConfusion hok
    | some fp =>
    rw [hbf] at hok
    obtain ⟨fp2, hfp2, hok⟩ := except_bind_ok hok
    obtain ⟨tm2x, htm2, hok⟩ := except_bind_ok hok
    obtain ⟨dm, hdm, hok⟩ := except_bind_ok hok
    obtain ⟨tm5, htm5, hok⟩ := except_bind_ok hok
    injection hok with hok
    have hmid := btm_md_fields_msgid env2 md2 _ tm5 htm5
    rw [← hok]
    split
    · exact hmid
    · exact hmid

set_option maxRecDepth 20000 in
/-- C8 counterexample to the claim as stated: a decode returns the Cid
folder text verbatim as the correlation id — here "abc", which carries
no "ID:" marker and no hex rendering — and hexlify renders in
lowercase ("ab" for byte 0xAB), not uppercase. -/
theorem C8_counterexample :
    ((build_text_message wEnv7 true wMd7
        (build_header true { jms_correlation_id := some "abc".data } "Q".data 0)).toOption.getD {}).jms_correlation_id
      = some "abc".data ∧
    WMQ_ID_PREFIX.isPrefixOf "abc".data = false ∧
    pyHexlify [Char.ofNat 171] = "ab".data ∧
    "ab".data ≠ "AB".data := by
  refine ⟨by rfl, by decide, by rfl, by decide⟩

set_option maxRecDepth 20000 in
/-- Witness for C8 at a concrete send and a concrete successful
decode. -/
theorem C8_witness :
    build_text_message wEnv7 true wMd7 wMsg7 =
      Except.ok ((build_text_message wEnv7 true wMd7 wMsg7).toOption.getD {}) ∧
    ((send_update_message wEnv7 {} wMd7 0).jms_message_id
        = some (WMQ_ID_PREFIX ++ pyHexlify wMd7.MsgId) ∧
     (send_update_message wEnv7 {} wMd7 0).jms_correlation_id
        = some (WMQ_ID_PREFIX ++ pyHexlify wMd7.CorrelId) ∧
     ((build_text_message wEnv7 true wMd7 wMsg7).toOption.getD {}).jms_message_id
        = some (WMQ_ID_PREFIX ++ pyHexlify wMd7.MsgId) ∧
     (pyHexlify wMd7.MsgId).all isLowerHex = true ∧
     (pyHexlify wMd7.CorrelId).all isLowerHex = true ∧
     (pyHexlify wMd7.MsgId).all isLowerHex = true) :=
  ⟨by rfl,
   C8_id_rendering wEnv7 wEnv7 {} wMd7 wMd7 0 true wMsg7
     ((build_text_message wEnv7 true wMd7 wMsg7).toOption.getD {}) (by rfl)⟩


/-! ## Header layout -/

theorem pySlice_8_12 (t : Nat) (rest : Str) :
    pySlice (fixed_part t ++ rest) 8 12 = pack4 t := by
  have hlen : (fixed_part t ++ rest).length = 36 + rest.length := by
    simp [fixed_part, CMQC.MQRFH_STRUC_ID, WMQ_MQRFH_VERSION_2,
      WMQ_DEFAULT_ENCODING_WIRE_FORMAT, WMQ_DEFAULT_CCSID_WIRE_FORMAT,
      CMQC.MQFMT_STRING, WMQ_MQRFH_NO_FLAGS_WIRE_FORMAT, pack4]
    omega
  unfold pySlice pyResolveIdx
  rw [hlen]
  rw [if_neg (by omega), if_neg (by omega)]
  rw [show min ((12:Int).toNat) (36 + rest.length) = 12 from by omega]
  rw [show min ((8:Int).toNat) (36 + rest.length) = 8 from by omega]
  have hdecomp : fixed_part t ++ rest =
      (CMQC.MQRFH_STRUC_ID ++ WMQ_MQRFH_VERSION_2 ++ pack4 t) ++
      (WMQ_DEFAULT_ENCODING_WIRE_FORMAT ++ WMQ_DEFAULT_CCSID_WIRE_FORMAT ++
       CMQC.MQFMT_STRING ++ WMQ_MQRFH_NO_FLAGS_WIRE_FORMAT ++
       WMQ_DEFAULT_CCSID_WIRE_FORMAT ++ rest) := by
    simp [fixed_part, List.append_assoc]
  rw [hdecomp]
  rw [List.take_left' (by
    simp [pack4, CMQC.MQRFH_STRUC_ID, WMQ_MQRFH_VERSION_2])]
  rw [show (CMQC.MQRFH_STRUC_ID ++ WMQ_MQRFH_VERSION_2 ++ pack4 t) =
      ((CMQC.MQRFH_STRUC_ID ++ WMQ_MQRFH_VERSION_2) ++ pack4 t) from by
    simp [List.append_assoc]]
  rw [List.drop_left' (by simp [CMQC.MQRFH_STRUC_ID, WMQ_MQRFH_VERSION_2])]

theorem build_header_eq (needs_mcd : Bool) (message : TextMessage)
    (queue_name : Str) (now : Nat) :
    build_header needs_mcd message queue_name now =
      fixed_part (36 + ((emitted_folders needs_mcd message queue_name now).map
          (fun f => 4 + f.length)).sum) ++
        (emitted_folders needs_mcd message queue_name now).flatMap
          (fun f => pack4 f.length ++ f) := by
  unfold build_header emitted_folders
  cases needs_mcd with
  | false =>
    cases hm : add_usr message with
    | none =>
      simp only [hm, Option.isSome_none, Bool.false_eq_true,
        eq_self_iff_true, if_true, if_false, List.length_nil,
        List.nil_append, List.append_nil, List.cons_append, List.map_cons,
        List.map_nil, List.sum_cons, List.sum_nil, List.flatMap_cons,
        List.flatMap_nil, List.append_assoc]
    | some u =>
      simp only [hm, Option.isSome_some, Bool.false_eq_true,
        eq_self_iff_true, if_true, if_false, List.length_nil,
        List.nil_append, List.append_nil, List.cons_append, List.map_cons,
        List.map_nil, List.sum_cons, List.sum_nil, List.flatMap_cons,
        List.flatMap_nil, List.append_assoc]
      congr 1
      exact congrArg fixed_part (by omega)
  | true =>
    cases hm : add_usr message with
    | none =>
      simp only [hm, Option.isSome_none, Bool.false_eq_true,
        eq_self_iff_true, if_true, if_false, List.length_nil,
        List.nil_append, List.append_nil, List.cons_append, List.map_cons,
        List.map_nil, List.sum_cons, List.sum_nil, List.flatMap_cons,
        List.flatMap_nil, List.append_assoc]
      congr 1
      exact congrArg fixed_part (by omega)
    | some u =>
      simp only [hm, Option.isSome_some, Bool.false_eq_true,
        eq_self_iff_true, if_true, if_false, List.length_nil,
        List.nil_append, List.append_nil, List.cons_append, List.map_cons,
        List.map_nil, List.sum_cons, List.sum_nil, List.flatMap_cons,
        List.flatMap_nil, List.append_assoc]
      congr 1
      exact congrArg fixed_part (by omega)

/-- C3: every folder `build_header` emits has a byte length that is a
multiple of 4 (shorter folders are right-padded with spaces), the
emitted header is the 36-byte fixed prefix followed, for exactly the
folders present, by a 4-byte length field and the padded body (an
absent folder contributes neither), and the total-length field written
at bytes 8..12 of the fixed prefix reads back as 36 plus the sum of
(4 + padded length) over those folders. -/
theorem C3_padding_invariant (needs_mcd : Bool) (message : TextMessage)
    (queue_name : Str) (now : Nat)
    (hlt : 36 + ((emitted_folders needs_mcd message queue_name now).map
            (fun f => 4 + f.length)).sum < 2147483648) :
    ((emitted_folders needs_mcd message queue_name now).all
        (fun f => f.length % 4 == 0)) = true ∧
    build_header needs_mcd message queue_name now =
      fixed_part (36 + ((emitted_folders needs_mcd message queue_name now).map
          (fun f => 4 + f.length)).sum) ++
        (emitted_folders needs_mcd message queue_name now).flatMap
          (fun f => pack4 f.length ++ f) ∧
    unpack4 (pySlice (build_header needs_mcd message queue_name now) 8 12) =
      some ((36 + ((emitted_folders needs_mcd message queue_name now).map
          (fun f => 4 + f.length)).sum : Nat) : Int) := by
  refine ⟨?_, build_header_eq needs_mcd message queue_name now, ?_⟩
  · rw [List.all_eq_true]
    intro f hf
    rw [beq_iff_eq]
    unfold emitted_folders at hf
    rcases List.mem_append.mp hf with h1 | h2
    · rcases List.mem_append.mp h1 with ha | hb
      · cases needs_mcd with
        | false => simp at ha
        | true =>
          simp only [if_true, List.mem_singleton] at ha
          rw [ha]
          exact pad_folder_length_mod _
      · simp only [List.mem_singleton] at hb
        rw [hb]
        exact pad_folder_length_mod _
    · cases hm : add_usr message with
      | none => rw [hm] at h2; simp at h2
      | some u =>
        rw [hm] at h2
        simp only [List.mem_singleton] at h2
        rw [h2]
        exact pad_folder_length_mod _
  · rw [build_header_eq needs_mcd message queue_name now, pySlice_8_12]
    exact unpack4_pack4 hlt

/-- Witness for C3 at a concrete header. -/
theorem C3_witness :
    36 + ((emitted_folders true {} "Q".data 0).map (fun f => 4 + f.length)).sum
        < 2147483648 ∧
    (((emitted_folders true {} "Q".data 0).all (fun f => f.length % 4 == 0)) = true ∧
     build_header true {} "Q".data 0 =
       fixed_part (36 + ((emitted_folders true {} "Q".data 0).map
           (fun f => 4 + f.length)).sum) ++
         (emitted_folders true {} "Q".data 0).flatMap
           (fun f => pack4 f.length ++ f) ∧
     unpack4 (pySlice (build_header true {} "Q".data 0) 8 12) =
       some ((36 + ((emitted_folders true {} "Q".data 0).map
           (fun f => 4 + f.length)).sum : Nat) : Int)) :=
  ⟨by decide, C3_padding_invariant true {} "Q".data 0 (by decide)⟩

/-! ## Decoding an encoded message -/

theorem strToInt_natDec (n : Nat) : strToInt (natDec n) = some (n : Int) := by
  obtain ⟨c, rest, hc⟩ : ∃ c rest, natDec n = c :: rest := by
    cases hx : natDec n with
    | nil => exact absurd hx (natDec_ne_nil n)
    | cons c rest => exact ⟨c, rest, rfl⟩
  have hdig : isDig c = true := by
    have := natDec_all_digits n
    rw [hc] at this
    simp only [List.all_cons, Bool.and_eq_true] at this
    exact this.1
  have hnm : c ≠ '-' := by
    intro he
    rw [he] at hdig
    exact absurd hdig (by decide)
  rw [hc]
  unfold strToInt
  dsimp only
  rw [if_neg hnm, ← hc, strToNat_natDec]
  rfl

theorem strToInt_intDec (i : Int) : strToInt (intDec i) = some i := by
  unfold intDec
  by_cases hneg : i < 0
  · rw [if_pos hneg]
    unfold strToInt
    dsimp only
    rw [if_pos rfl, strToNat_natDec]
    show some (-((i.natAbs : Nat) : Int)) = some i
    congr 1
    omega
  · rw [if_neg hneg]
    rw [strToInt_natDec]
    congr 1
    omega

theorem intDec_ne_nil (i : Int) : intDec i ≠ [] := by
  unfold intDec
  split
  · exact List.cons_ne_nil _ _
  · exact natDec_ne_nil _

theorem pyUnicodeOptInt_ne_nil (o : Option Int) : pyUnicodeOptInt o ≠ [] := by
  cases o with
  | none => exact by decide
  | some v => exact intDec_ne_nil v

theorem wfF_ofList (l : List XNode) : wfF (XForest.ofList l) = l.all wfE := by
  induction l with
  | nil => rfl
  | cons x xs ih => simp [XForest.ofList, wfF, ih]

/-- The jms folder the encoder builds is always well formed: its tags
are fixed names, it carries no attributes, and the leaf texts are
nonempty (the correlation id only appears when truthy, hence
nonempty). -/
theorem wfE_elem (tag : Str) (attrs : List (Str × Str)) (txt : Option Str)
    (ch : XForest) :
    wfE (.elem tag attrs txt ch) =
      (!tag.isEmpty && tag.all isNameChar &&
       attrs.all (fun kv => !kv.1.isEmpty && kv.1.all isNameChar) &&
       (match txt with | some t => !t.isEmpty | none => true) &&
       wfF ch) := rfl

theorem wf_add_jms (m : TextMessage) (q : Str) (now : Nat) :
    wfE (add_jms m q now) = true := by
  unfold add_jms
  rw [wfE_elem, wfF_ofList]
  have hall : ([XNode.elem "Dst".data [] (some ("queue:///".data ++ q)) .nil,
      .elem "Tms".data [] (some (natDec now)) .nil,
      .elem "Dlv".data [] (some (pyUnicodeOptInt m.jms_delivery_mode)) .nil] ++
    (if truthyOptInt m.jms_expiration then
      [XNode.elem "Exp".data []
        (some (intDec ((now : Int) + m.jms_expiration.getD 0))) .nil]
     else []) ++
    (if truthyOptInt m.jms_priority then
      [XNode.elem "Pri".data [] (some (intDec (m.jms_priority.getD 0))) .nil]
     else []) ++
    (if truthyOptStr m.jms_correlation_id then
      [XNode.elem "Cid".data [] (some (m.jms_correlation_id.getD [])) .nil]
     else [])).all wfE = true := by
    rw [List.all_eq_true]
    intro x hx
    simp only [List.mem_append, List.mem_cons, List.not_mem_nil, or_false] at hx
    rcases hx with (((h | h | h) | h) | h) | h
    · rw [h, wfE_elem]; rfl
    · rw [h, wfE_elem]
      simp only [wfF, Bool.and_true, Bool.true_and]
      simp only [Bool.and_eq_true, Bool.not_eq_true', List.isEmpty_eq_false]
      exact ⟨by decide, natDec_ne_nil now⟩
    · rw [h, wfE_elem]
      simp only [wfF, Bool.and_true, Bool.true_and]
      simp only [Bool.and_eq_true, Bool.not_eq_true', List.isEmpty_eq_false]
      exact ⟨by decide, pyUnicodeOptInt_ne_nil _⟩
    · split at h
      · simp only [List.mem_singleton] at h
        rw [h, wfE_elem]
        simp only [wfF, Bool.and_true, Bool.true_and]
        simp only [Bool.and_eq_true, Bool.not_eq_true', List.isEmpty_eq_false]
        exact ⟨by decide, intDec_ne_nil _⟩
      · exact absurd h (List.not_mem_nil x)
    · split at h
      · simp only [List.mem_singleton] at h
        rw [h, wfE_elem]
        simp only [wfF, Bool.and_true, Bool.true_and]
        simp only [Bool.and_eq_true, Bool.not_eq_true', List.isEmpty_eq_false]
        exact ⟨by decide, intDec_ne_nil _⟩
      · exact absurd h (List.not_mem_nil x)
    · split at h
      · rename_i htr
        simp only [List.mem_singleton] at h
        rw [h, wfE_elem]
        simp only [wfF, Bool.and_true, Bool.true_and]
        simp only [Bool.and_eq_true, Bool.not_eq_true', List.isEmpty_eq_false]
        refine ⟨by decide, ?_⟩
        cases hc : m.jms_correlation_id with
        | none => rw [hc] at htr; exact absurd htr (by decide)
        | some c =>
          rw [hc] at htr
          simp only [truthyOptStr, Bool.not_eq_true'] at htr
          simp only [Option.getD_some]
          intro he
          rw [he] at htr
          exact absurd htr (by decide)
      · exact absurd h (List.not_mem_nil x)
  rw [hall]
  rfl


theorem wf_mcd : wfE mcdElem = true := by decide

theorem pySlice_block (len : Nat) (f rest : Str) (hflen : f.length = len) :
    pySlice (pack4 len ++ (f ++ rest)) 4 (4 + (len : Int)) = f := by
  unfold pySlice pyResolveIdx
  have hlen : (pack4 len ++ (f ++ rest)).length = 4 + (len + rest.length) := by
    simp [pack4, hflen]
    omega
  rw [hlen]
  rw [if_neg (by omega), if_neg (by omega)]
  rw [show (4 + (len : Int)).toNat = 4 + len from by omega]
  rw [show min (4 + len) (4 + (len + rest.length)) = 4 + len from by omega]
  rw [show ((4:Int)).toNat = 4 from by omega]
  rw [show min 4 (4 + (len + rest.length)) = 4 from by omega]
  rw [show pack4 len ++ (f ++ rest) = (pack4 len ++ f) ++ rest from by
    simp [List.append_assoc]]
  rw [List.take_left' (by simp [pack4, hflen]; omega)]
  rw [List.drop_left' (by rfl : (pack4 len).length = 4)]

theorem pySliceFrom_block (len : Nat) (f rest : Str) (hflen : f.length = len) :
    pySliceFrom (pack4 len ++ (f ++ rest)) (4 + (len : Int)) = rest := by
  unfold pySliceFrom pyResolveIdx
  have hlen : (pack4 len ++ (f ++ rest)).length = 4 + (len + rest.length) := by
    simp [pack4, hflen]
    omega
  rw [hlen]
  rw [if_neg (by omega)]
  rw [show (4 + (len : Int)).toNat = 4 + len from by omega]
  rw [show min (4 + len) (4 + (len + rest.length)) = 4 + len from by omega]
  rw [show pack4 len ++ (f ++ rest) = (pack4 len ++ f) ++ rest from by
    simp [List.append_assoc]]
  rw [List.drop_left' (by simp [pack4, hflen]; omega)]

theorem parse_blocks_step (needs_mcd : Bool) (fuel : Nat) (len : Nat)
    (f rest : Str) (folders folders2 : List (Str × XNode))
    (hflen : f.length = len) (hlt : len < 2147483648)
    (hbf : build_folder needs_mcd folders f = some folders2) :
    parse_blocks needs_mcd (fuel + 1) (pack4 len ++ (f ++ rest)) folders =
      parse_blocks needs_mcd fuel rest folders2 := by
  rw [show pack4 len ++ (f ++ rest) =
    Char.ofNat (len / 16777216 % 256) :: Char.ofNat (len / 65536 % 256) ::
    Char.ofNat (len / 256 % 256) :: Char.ofNat (len % 256) :: (f ++ rest)
    from rfl]
  conv_lhs => unfold parse_blocks
  rw [show (Char.ofNat (len / 16777216 % 256) :: Char.ofNat (len / 65536 % 256) ::
    Char.ofNat (len / 256 % 256) :: Char.ofNat (len % 256) :: (f ++ rest)).take 4
    = pack4 len from rfl]
  rw [unpack4_pack4 hlt]
  dsimp only
  rw [show Char.ofNat (len / 16777216 % 256) :: Char.ofNat (len / 65536 % 256) ::
    Char.ofNat (len / 256 % 256) :: Char.ofNat (len % 256) :: (f ++ rest)
    = pack4 len ++ (f ++ rest) from rfl]
  rw [pySlice_block len f rest hflen, hbf]
  dsimp only
  rw [pySliceFrom_block len f rest hflen]


theorem build_folder_of_wf (needs_mcd : Bool) (folders : List (Str × XNode))
    (e : XNode) (hwf : wfE e = true)
    (hx : (containsXsiNil (pad_folder (serE e)) &&
           !containsXmlns (pad_folder (serE e))) = false)
    (hroot : e.tag ∈ (if needs_mcd then ["jms".data, "usr".data, "mcd".data]
      else ["jms".data, "usr".data])) :
    build_folder needs_mcd folders (pad_folder (serE e)) =
      some (dinsert folders e.tag e) := by
  unfold build_folder
  rw [if_neg (by rw [hx]; exact Bool.false_ne_true)]
  dsimp only
  rw [fromstring_pad_ser hwf]
  dsimp only
  rw [if_pos hroot]

theorem pySlice_36 (tt : Nat) (body text : Str) :
    pySlice (fixed_part tt ++ (body ++ text)) 36 (36 + (body.length : Int)) = body := by
  have hfp : (fixed_part tt).length = 36 := by
    simp [fixed_part, CMQC.MQRFH_STRUC_ID, WMQ_MQRFH_VERSION_2,
      WMQ_DEFAULT_ENCODING_WIRE_FORMAT, WMQ_DEFAULT_CCSID_WIRE_FORMAT,
      CMQC.MQFMT_STRING, WMQ_MQRFH_NO_FLAGS_WIRE_FORMAT, pack4]
  have hlen : (fixed_part tt ++ (body ++ text)).length =
      36 + (body.length + text.length) := by
    simp [hfp]
  unfold pySlice pyResolveIdx
  rw [hlen]
  rw [if_neg (by omega), if_neg (by omega)]
  rw [show (36 + (body.length : Int)).toNat = 36 + body.length from by omega]
  rw [show min (36 + body.length) (36 + (body.length + text.length)) =
      36 + body.length from by omega]
  rw [show ((36:Int)).toNat = 36 from by omega]
  rw [show min 36 (36 + (body.length + text.length)) = 36 from by omega]
  rw [show fixed_part tt ++ (body ++ text) =
    (fixed_part tt ++ body) ++ text from by simp [List.append_assoc]]
  rw [List.take_left' (by simp [hfp])]
  rw [List.drop_left' hfp]

theorem pySliceFrom_36 (tt : Nat) (body text : Str) :
    pySliceFrom (fixed_part tt ++ (body ++ text)) (36 + (body.length : Int)) = text := by
  have hfp : (fixed_part tt).length = 36 := by
    simp [fixed_part, CMQC.MQRFH_STRUC_ID, WMQ_MQRFH_VERSION_2,
      WMQ_DEFAULT_ENCODING_WIRE_FORMAT, WMQ_DEFAULT_CCSID_WIRE_FORMAT,
      CMQC.MQFMT_STRING, WMQ_MQRFH_NO_FLAGS_WIRE_FORMAT, pack4]
  have hlen : (fixed_part tt ++ (body ++ text)).length =
      36 + (body.length + text.length) := by
    simp [hfp]
  unfold pySliceFrom pyResolveIdx
  rw [hlen]
  rw [if_neg (by omega)]
  rw [show (36 + (body.length : Int)).toNat = 36 + body.length from by omega]
  rw [show min (36 + body.length) (36 + (body.length + text.length)) =
      36 + body.length from by omega]
  rw [show fixed_part tt ++ (body ++ text) =
    (fixed_part tt ++ body) ++ text from by simp [List.append_assoc]]
  rw [List.drop_left' (by simp [hfp])]


theorem btm_jms_of_add (folders : List (Str × XNode)) (m : TextMessage)
    (q : Str) (now : Nat) (tm1 : TextMessage)
    (hlook : folders.lookup "jms".data = some (add_jms m q now)) :
    btm_jms folders tm1 = Except.ok
      { tm1 with
        jms_destination := some (pyStrip ("queue:///".data ++ q)),
        jms_expiration := some (if truthyOptInt m.jms_expiration
          then (now : Int) + m.jms_expiration.getD 0 else 0),
        jms_correlation_id := if truthyOptStr m.jms_correlation_id
          then some (m.jms_correlation_id.getD []) else tm1.jms_correlation_id } := by
  unfold btm_jms
  rw [hlook]
  by_cases hexp : truthyOptInt m.jms_expiration <;>
    by_cases hpri : truthyOptInt m.jms_priority <;>
      by_cases hcid : truthyOptStr m.jms_correlation_id <;>
        simp [add_jms, hexp, hpri, hcid, XNode.find, findChildF, XForest.ofList,
          XNode.tag, XNode.txt, XNode.children, XForest.isNil, strToInt_intDec,
          bind, Except.bind]


theorem parse_blocks_nil (needs_mcd : Bool) (fuel : Nat)
    (folders : List (Str × XNode)) :
    parse_blocks needs_mcd fuel [] folders = some folders := by
  cases fuel <;> rfl

theorem flatMap_pack_length (L : List Str) :
    (L.flatMap (fun f => pack4 f.length ++ f)).length =
      (L.map (fun f => 4 + f.length)).sum := by
  induction L with
  | nil => rfl
  | cons a t ih =>
    rw [List.flatMap_cons, List.map_cons, List.sum_cons, List.length_append,
      List.length_append, ih, pack4_length]

theorem xsiCond_mcd :
    (containsXsiNil (pad_folder (serE mcdElem)) &&
     !containsXmlns (pad_folder (serE mcdElem))) = false := by decide

theorem folders_of_encode_nousr (m : TextMessage) (q : Str) (now : Nat)
    (husr : add_usr m = none)
    (hxj : (containsXsiNil (pad_folder (serE (add_jms m q now))) &&
      !containsXmlns (pad_folder (serE (add_jms m q now)))) = false)
    (hlj : (pad_folder (serE (add_jms m q now))).length < 2147483648)
    (hT : 36 + ((emitted_folders true m q now).map (fun f => 4 + f.length)).sum
      < 2147483648) :
    build_folders_and_payload true (send_body true m q now) =
      some ([("mcd".data, mcdElem), ("jms".data, add_jms m q now)],
        m.text.getD []) := by
  have hemit : emitted_folders true m q now =
      [pad_folder (serE mcdElem), pad_folder (serE (add_jms m q now))] := by
    simp [emitted_folders, husr]
  have hwire : send_body true m q now =
      fixed_part (36 + ((emitted_folders true m q now).map
          (fun f => 4 + f.length)).sum) ++
        ((emitted_folders true m q now).flatMap (fun f => pack4 f.length ++ f) ++
          m.text.getD []) := by
    unfold send_body
    rw [build_header_eq true m q now, List.append_assoc]
  have hBlen : ((emitted_folders true m q now).flatMap
      (fun f => pack4 f.length ++ f)).length =
      ((emitted_folders true m q now).map (fun f => 4 + f.length)).sum :=
    flatMap_pack_length _
  unfold build_folders_and_payload
  rw [hwire, pySlice_8_12, unpack4_pack4 hT]
  dsimp only
  rw [show ((36 + ((emitted_folders true m q now).map
      (fun f => 4 + f.length)).sum : Nat) : Int) =
    36 + ((((emitted_folders true m q now).flatMap
      (fun f => pack4 f.length ++ f)).length : Nat) : Int) from by
    rw [hBlen]; omega]
  rw [pySlice_36, pySliceFrom_36]
  rw [hemit]
  rw [show [pad_folder (serE mcdElem), pad_folder (serE (add_jms m q now))].flatMap
      (fun f => pack4 f.length ++ f) =
    pack4 (pad_folder (serE mcdElem)).length ++ (pad_folder (serE mcdElem) ++
      (pack4 (pad_folder (serE (add_jms m q now))).length ++
        (pad_folder (serE (add_jms m q now)) ++ []))) from by
    simp [List.flatMap_cons, List.append_assoc]]
  have hlm : (pad_folder (serE mcdElem)).length < 2147483648 := by decide
  have hb1 : build_folder true [] (pad_folder (serE mcdElem)) =
      some [("mcd".data, mcdElem)] := by
    rw [build_folder_of_wf true [] mcdElem wf_mcd xsiCond_mcd (by decide)]
    rfl
  have hb2 : build_folder true [("mcd".data, mcdElem)]
      (pad_folder (serE (add_jms m q now))) =
      some [("mcd".data, mcdElem), ("jms".data, add_jms m q now)] := by
    rw [build_folder_of_wf true _ (add_jms m q now) (wf_add_jms m q now) hxj
      (by rw [show (add_jms m q now).tag = "jms".data from rfl]; decide)]
    rw [show (add_jms m q now).tag = "jms".data from rfl]
    rfl
  have hlen2 : (pack4 (pad_folder (serE mcdElem)).length ++
      (pad_folder (serE mcdElem) ++
        (pack4 (pad_folder (serE (add_jms m q now))).length ++
          (pad_folder (serE (add_jms m q now)) ++ [])))).length =
      (4 + (pad_folder (serE mcdElem)).length) +
      ((4 + (pad_folder (serE (add_jms m q now))).length) + 0) := by
    simp [pack4]
    omega
  rw [hlen2]
  rw [parse_blocks_step true _ _ _ _ _ _ rfl hlm hb1]
  rw [show (4 + (pad_folder (serE mcdElem)).length) +
      ((4 + (pad_folder (serE (add_jms m q now))).length) + 0) =
    (3 + (pad_folder (serE mcdElem)).length +
      ((4 + (pad_folder (serE (add_jms m q now))).length) + 0)) + 1 from by omega]
  rw [parse_blocks_step true _ _ _ _ _ _ rfl hlj hb2]
  rw [parse_blocks_nil]


theorem btm_delivery_mode_of_valid (md : MD)
    (hpers : md.Persistence = 0 ∨ md.Persistence = 1 ∨ md.Persistence = 2) :
    btm_delivery_mode md =
      Except.ok (if md.Persistence = CMQC.MQPER_NOT_PERSISTENT
        then DELIVERY_MODE_NON_PERSISTENT else DELIVERY_MODE_PERSISTENT) := by
  unfold btm_delivery_mode
  rcases hpers with h | h | h <;> rw [h] <;> rfl

theorem btm_md_fields_fields (env : TimeEnv) (md : MD) (tm3 : TextMessage)
    (ts : Int)
    (hts : get_jms_timestamp_from_md env (pyStrip md.PutDate) (pyStrip md.PutTime)
      = some ts) :
    ∃ tm5, btm_md_fields env md tm3 = Except.ok tm5 ∧
      tm5.jms_destination = tm3.jms_destination ∧
      tm5.jms_expiration = tm3.jms_expiration ∧
      tm5.jms_correlation_id = tm3.jms_correlation_id ∧
      tm5.userProps = tm3.userProps ∧
      tm5.jms_priority = some md.Priority ∧
      tm5.jms_delivery_mode = tm3.jms_delivery_mode := by
  unfold btm_md_fields
  rw [hts]
  refine ⟨_, rfl, ?_, ?_, ?_, ?_, ?_, ?_⟩
  all_goals dsimp only
  all_goals first | rfl | (split <;> rfl)



theorem build_text_message_of_folders (env : TimeEnv) (md : MD)
    (folders : List (Str × XNode)) (payload : Str) (tm2 : TextMessage) (ts : Int)
    (needs_mcd : Bool) (message : Str)
    (hbf : build_folders_and_payload needs_mcd message = some (folders, payload))
    (hjms : btm_jms folders (btm_usr folders) = Except.ok tm2)
    (hts : get_jms_timestamp_from_md env (pyStrip md.PutDate) (pyStrip md.PutTime)
      = some ts)
    (hpers : md.Persistence = 0 ∨ md.Persistence = 1 ∨ md.Persistence = 2) :
    ∃ tmf, build_text_message env needs_mcd md message = Except.ok tmf ∧
      tmf.jms_destination = tm2.jms_destination ∧
      tmf.jms_expiration = tm2.jms_expiration ∧
      tmf.jms_correlation_id = tm2.jms_correlation_id ∧
      tmf.userProps = tm2.userProps ∧
      tmf.jms_priority = some md.Priority ∧
      tmf.jms_delivery_mode = some (if md.Persistence = CMQC.MQPER_NOT_PERSISTENT
        then DELIVERY_MODE_NON_PERSISTENT else DELIVERY_MODE_PERSISTENT) := by
  obtain ⟨tm5, h5, hdst5, hexp5, hcid5, husr5, hpri5, hdm5⟩ :=
    btm_md_fields_fields env md
      { tm2 with jms_delivery_mode := some (if md.Persistence = CMQC.MQPER_NOT_PERSISTENT then DELIVERY_MODE_NON_PERSISTENT else DELIVERY_MODE_PERSISTENT) }
      ts hts
  refine ⟨if !payload.isEmpty then { tm5 with text := some payload } else tm5,
    ?_, ?_, ?_, ?_, ?_, ?_, ?_⟩
  · unfold build_text_message
    rw [hbf]
    dsimp only [bind, Except.bind]
    rw [hjms]
    dsimp only [bind, Except.bind]
    rw [btm_delivery_mode_of_valid md hpers]
    dsimp only [bind, Except.bind]
    rw [h5]
  · rw [apply_ite (fun t => TextMessage.jms_destination t)]
    simp only [hdst5]
    split <;> rfl
  · rw [apply_ite (fun t => TextMessage.jms_expiration t)]
    simp only [hexp5]
    split <;> rfl
  · rw [apply_ite (fun t => TextMessage.jms_correlation_id t)]
    simp only [hcid5]
    split <;> rfl
  · rw [apply_ite (fun t => TextMessage.userProps t)]
    simp only [husr5]
    split <;> rfl
  · rw [apply_ite (fun t => TextMessage.jms_priority t)]
    simp only [hpri5]
    split <;> rfl
  · rw [apply_ite (fun t => TextMessage.jms_delivery_mode t)]
    simp only [hdm5]
    split <;> rfl


theorem decode_of_encode_nousr (env : TimeEnv) (m : TextMessage) (q : Str)
    (now : Nat) (md : MD) (ts : Int)
    (husr : add_usr m = none)
    (hxj : (containsXsiNil (pad_folder (serE (add_jms m q now))) &&
      !containsXmlns (pad_folder (serE (add_jms m q now)))) = false)
    (hlj : (pad_folder (serE (add_jms m q now))).length < 2147483648)
    (hT : 36 + ((emitted_folders true m q now).map (fun f => 4 + f.length)).sum
      < 2147483648)
    (hts : get_jms_timestamp_from_md env (pyStrip md.PutDate) (pyStrip md.PutTime)
      = some ts)
    (hpers : md.Persistence = 0 ∨ md.Persistence = 1 ∨ md.Persistence = 2) :
    ∃ tm, build_text_message env true md (send_body true m q now) = Except.ok tm ∧
      tm.jms_destination = some (pyStrip ("queue:///".data ++ q)) ∧
      tm.jms_expiration = some (if truthyOptInt m.jms_expiration
        then (now : Int) + m.jms_expiration.getD 0 else 0) ∧
      tm.jms_correlation_id = (if truthyOptStr m.jms_correlation_id
        then some (m.jms_correlation_id.getD []) else none) ∧
      tm.userProps = [] ∧
      tm.jms_priority = some md.Priority := by
  have hjms := btm_jms_of_add
    [("mcd".data, mcdElem), ("jms".data, add_jms m q now)] m q now
    (btm_usr [("mcd".data, mcdElem), ("jms".data, add_jms m q now)]) rfl
  obtain ⟨tmf, hmain, hdst, hexp, hcid, hup, hpri, hdm⟩ :=
    build_text_message_of_folders env md _ _ _ ts true (send_body true m q now)
      (folders_of_encode_nousr m q now husr hxj hlj hT) hjms hts hpers
  refine ⟨tmf, hmain, ?_, ?_, ?_, ?_, hpri⟩
  · rw [hdst]
  · rw [hexp]
  · rw [hcid]
    show (if truthyOptStr m.jms_correlation_id = true
      then some (m.jms_correlation_id.getD [])
      else (btm_usr [("mcd".data, mcdElem),
        ("jms".data, add_jms m q now)]).jms_correlation_id) = _
    split <;> rfl
  · rw [hup]
    rfl


theorem add_usr_shape (m : TextMessage) (usrE : XNode)
    (husr : add_usr m = some usrE) :
    usrE.tag = "usr".data ∧ usrE.attrs = [] ∧ usrE.children.isNil = false := by
  unfold add_usr at husr
  cases hup : m.userProps with
  | nil => rw [hup] at husr; exact Option.noConfusion husr
  | cons p ps =>
    rw [hup] at husr
    injection husr with husr
    rw [← husr]
    exact ⟨rfl, rfl, rfl⟩

theorem folders_of_encode_usr (m : TextMessage) (q : Str) (now : Nat)
    (usrE : XNode)
    (husr : add_usr m = some usrE)
    (hwfu : wfE usrE = true)
    (hxu : (containsXsiNil (pad_folder (serE usrE)) &&
      !containsXmlns (pad_folder (serE usrE))) = false)
    (hxj : (containsXsiNil (pad_folder (serE (add_jms m q now))) &&
      !containsXmlns (pad_folder (serE (add_jms m q now)))) = false)
    (hlj : (pad_folder (serE (add_jms m q now))).length < 2147483648)
    (hlu : (pad_folder (serE usrE)).length < 2147483648)
    (hT : 36 + ((emitted_folders true m q now).map (fun f => 4 + f.length)).sum
      < 2147483648) :
    build_folders_and_payload true (send_body true m q now) =
      some ([("mcd".data, mcdElem), ("jms".data, add_jms m q now),
        ("usr".data, usrE)], m.text.getD []) := by
  obtain ⟨htag, _, _⟩ := add_usr_shape m usrE husr
  have hemit : emitted_folders true m q now =
      [pad_folder (serE mcdElem), pad_folder (serE (add_jms m q now)),
       pad_folder (serE usrE)] := by
    simp [emitted_folders, husr]
  have hwire : send_body true m q now =
      fixed_part (36 + ((emitted_folders true m q now).map
          (fun f => 4 + f.length)).sum) ++
        ((emitted_folders true m q now).flatMap (fun f => pack4 f.length ++ f) ++
          m.text.getD []) := by
    unfold send_body
    rw [build_header_eq true m q now, List.append_assoc]
  have hBlen : ((emitted_folders true m q now).flatMap
      (fun f => pack4 f.length ++ f)).length =
      ((emitted_folders true m q now).map (fun f => 4 + f.length)).sum :=
    flatMap_pack_length _
  unfold build_folders_and_payload
  rw [hwire, pySlice_8_12, unpack4_pack4 hT]
  dsimp only
  rw [show ((36 + ((emitted_folders true m q now).map
      (fun f => 4 + f.length)).sum : Nat) : Int) =
    36 + ((((emitted_folders true m q now).flatMap
      (fun f => pack4 f.length ++ f)).length : Nat) : Int) from by
    rw [hBlen]; omega]
  rw [pySlice_36, pySliceFrom_36]
  rw [hemit]
  rw [show [pad_folder (serE mcdElem), pad_folder (serE (add_jms m q now)),
      pad_folder (serE usrE)].flatMap (fun f => pack4 f.length ++ f) =
    pack4 (pad_folder (serE mcdElem)).length ++ (pad_folder (serE mcdElem) ++
      (pack4 (pad_folder (serE (add_jms m q now))).length ++
        (pad_folder (serE (add_jms m q now)) ++
          (pack4 (pad_folder (serE usrE)).length ++
            (pad_folder (serE usrE) ++ []))))) from by
    simp [List.flatMap_cons, List.append_assoc]]
  have hlm : (pad_folder (serE mcdElem)).length < 2147483648 := by decide
  have hb1 : build_folder true [] (pad_folder (serE mcdElem)) =
      some [("mcd".data, mcdElem)] := by
    rw [build_folder_of_wf true [] mcdElem wf_mcd xsiCond_mcd (by decide)]
    rfl
  have hb2 : build_folder true [("mcd".data, mcdElem)]
      (pad_folder (serE (add_jms m q now))) =
      some [("mcd".data, mcdElem), ("jms".data, add_jms m q now)] := by
    rw [build_folder_of_wf true _ (add_jms m q now) (wf_add_jms m q now) hxj
      (by rw [show (add_jms m q now).tag = "jms".data from rfl]; decide)]
    rw [show (add_jms m q now).tag = "jms".data from rfl]
    rfl
  have hb3 : build_folder true
      [("mcd".data, mcdElem), ("jms".data, add_jms m q now)]
      (pad_folder (serE usrE)) =
      some [("mcd".data, mcdElem), ("jms".data, add_jms m q now),
        ("usr".data, usrE)] := by
    rw [build_folder_of_wf true _ usrE hwfu hxu (by rw [htag]; decide)]
    rw [htag]
    rfl
  have hlen2 : (pack4 (pad_folder (serE mcdElem)).length ++
      (pad_folder (serE mcdElem) ++
        (pack4 (pad_folder (serE (add_jms m q now))).length ++
          (pad_folder (serE (add_jms m q now)) ++
            (pack4 (pad_folder (serE usrE)).length ++
              (pad_folder (serE usrE) ++ [])))))).length =
      (4 + (pad_folder (serE mcdElem)).length) +
      ((4 + (pad_folder (serE (add_jms m q now))).length) +
        ((4 + (pad_folder (serE usrE)).length) + 0)) := by
    simp [pack4]
    omega
  rw [hlen2]
  rw [parse_blocks_step true _ _ _ _ _ _ rfl hlm hb1]
  rw [show (4 + (pad_folder (serE mcdElem)).length) +
      ((4 + (pad_folder (serE (add_jms m q now))).length) +
        ((4 + (pad_folder (serE usrE)).length) + 0)) =
    (3 + (pad_folder (serE mcdElem)).length +
      ((4 + (pad_folder (serE (add_jms m q now))).length) +
        ((4 + (pad_folder (serE usrE)).length) + 0))) + 1 from by omega]
  rw [parse_blocks_step true _ _ _ _ _ _ rfl hlj hb2]
  rw [show 3 + (pad_folder (serE mcdElem)).length +
      ((4 + (pad_folder (serE (add_jms m q now))).length) +
        ((4 + (pad_folder (serE usrE)).length) + 0)) =
    (2 + (pad_folder (serE mcdElem)).length +
      ((4 + (pad_folder (serE (add_jms m q now))).length) +
        ((4 + (pad_folder (serE usrE)).length) + 0))) + 1 from by omega]
  rw [parse_blocks_step true _ _ _ _ _ _ rfl hlu hb3]
  rw [parse_blocks_nil]


theorem decode_of_encode_usr (env : TimeEnv) (m : TextMessage) (q : Str)
    (now : Nat) (md : MD) (ts : Int) (usrE : XNode)
    (husr : add_usr m = some usrE)
    (hwfu : wfE usrE = true)
    (hxu : (containsXsiNil (pad_folder (serE usrE)) &&
      !containsXmlns (pad_folder (serE usrE))) = false)
    (hxj : (containsXsiNil (pad_folder (serE (add_jms m q now))) &&
      !containsXmlns (pad_folder (serE (add_jms m q now)))) = false)
    (hlj : (pad_folder (serE (add_jms m q now))).length < 2147483648)
    (hlu : (pad_folder (serE usrE)).length < 2147483648)
    (hT : 36 + ((emitted_folders true m q now).map (fun f => 4 + f.length)).sum
      < 2147483648)
    (hts : get_jms_timestamp_from_md env (pyStrip md.PutDate) (pyStrip md.PutTime)
      = some ts)
    (hpers : md.Persistence = 0 ∨ md.Persistence = 1 ∨ md.Persistence = 2) :
    ∃ tm, build_text_message env true md (send_body true m q now) = Except.ok tm ∧
      tm.jms_destination = some (pyStrip ("queue:///".data ++ q)) ∧
      tm.jms_expiration = some (if truthyOptInt m.jms_expiration
        then (now : Int) + m.jms_expiration.getD 0 else 0) ∧
      tm.jms_correlation_id = (if truthyOptStr m.jms_correlation_id
        then some (m.jms_correlation_id.getD []) else none) ∧
      tm.userProps = [] ∧
      tm.jms_priority = some md.Priority := by
  obtain ⟨htag, hattrs, hch⟩ := add_usr_shape m usrE husr
  have hbusr : btm_usr [("mcd".data, mcdElem), ("jms".data, add_jms m q now),
      ("usr".data, usrE)] = ({} : TextMessage) := by
    unfold btm_usr
    rw [show ([("mcd".data, mcdElem), ("jms".data, add_jms m q now),
      ("usr".data, usrE)].lookup "usr".data) = some usrE from rfl]
    dsimp only
    simp only [hch, Bool.false_eq_true, if_false, hattrs, List.map_nil]
  have hjms := btm_jms_of_add
    [("mcd".data, mcdElem), ("jms".data, add_jms m q now), ("usr".data, usrE)]
    m q now
    (btm_usr [("mcd".data, mcdElem), ("jms".data, add_jms m q now),
      ("usr".data, usrE)]) rfl
  obtain ⟨tmf, hmain, hdst, hexp, hcid, hup, hpri, hdm⟩ :=
    build_text_message_of_folders env md _ _ _ ts true (send_body true m q now)
      (folders_of_encode_usr m q now usrE husr hwfu hxu hxj hlj hlu hT)
      hjms hts hpers
  refine ⟨tmf, hmain, ?_, ?_, ?_, ?_, hpri⟩
  · rw [hdst]
  · rw [hexp]
  · rw [hcid]
    show (if truthyOptStr m.jms_correlation_id = true
      then some (m.jms_correlation_id.getD [])
      else (btm_usr [("mcd".data, mcdElem), ("jms".data, add_jms m q now),
        ("usr".data, usrE)]).jms_correlation_id) = _
    rw [hbusr]
  · rw [hup]
    show (btm_usr [("mcd".data, mcdElem), ("jms".data, add_jms m q now),
      ("usr".data, usrE)]).userProps = _
    rw [hbusr]


def msgC2 : TextMessage :=
  { jms_priority := some 5, jms_correlation_id := some "abc".data }

def mdC2 (pd pt : Str) : MD :=
  { (build_md msgC2).toOption.getD {} with PutDate := pd, PutTime := pt }

def wireC2 (now : Nat) : Str :=
  send_body true msgC2 (strip_prefixes_from_destination "queue:///TEST.Q".data) now

/-- C2: sending the scenario message (jms_priority 5, jms_correlation_id
"abc", no expiration) to destination queue:///TEST.Q and decoding the
produced wire bytes together with the descriptor the send built
(completed by the queue manager with a parseable put date and time)
yields jms_priority = 5, jms_correlation_id = "abc", jms_destination =
"queue:///TEST.Q" and jms_expiration = 0.  The side conditions bound
the header size below 2^31 and exclude the xsi:nil rewrite quirk; the
witness discharges them at a concrete clock. -/
theorem C2_send_scenario (env : TimeEnv) (now : Nat) (pd pt : Str) (ts : Int)
    (hts : get_jms_timestamp_from_md env (pyStrip pd) (pyStrip pt) = some ts)
    (hxj : (containsXsiNil (pad_folder (serE (add_jms msgC2 "TEST.Q".data now))) &&
      !containsXmlns (pad_folder (serE (add_jms msgC2 "TEST.Q".data now)))) = false)
    (hlj : (pad_folder (serE (add_jms msgC2 "TEST.Q".data now))).length < 2147483648)
    (hT : 36 + ((emitted_folders true msgC2 "TEST.Q".data now).map
      (fun f => 4 + f.length)).sum < 2147483648) :
    build_text_message env true (mdC2 pd pt) (wireC2 now) =
      Except.ok ((build_text_message env true (mdC2 pd pt)
        (wireC2 now)).toOption.getD {}) ∧
    ((build_text_message env true (mdC2 pd pt) (wireC2 now)).toOption.getD
      {}).jms_priority = some 5 ∧
    ((build_text_message env true (mdC2 pd pt) (wireC2 now)).toOption.getD
      {}).jms_correlation_id = some "abc".data ∧
    ((build_text_message env true (mdC2 pd pt) (wireC2 now)).toOption.getD
      {}).jms_destination = some "queue:///TEST.Q".data ∧
    ((build_text_message env true (mdC2 pd pt) (wireC2 now)).toOption.getD
      {}).jms_expiration = some 0 := by
  obtain ⟨tm, hmain, hdst, hexp, hcid, hup, hpri⟩ :=
    decode_of_encode_nousr env msgC2 "TEST.Q".data now (mdC2 pd pt) ts
      rfl hxj hlj hT
      (by rw [show pyStrip (mdC2 pd pt).PutDate = pyStrip pd from rfl,
        show pyStrip (mdC2 pd pt).PutTime = pyStrip pt from rfl]; exact hts)
      (Or.inr (Or.inr (by rfl)))
  have hwire : wireC2 now = send_body true msgC2 "TEST.Q".data now := rfl
  rw [hwire, hmain]
  refine ⟨rfl, ?_, ?_, ?_, ?_⟩
  · rw [show (Except.ok tm : Except JmsErr TextMessage).toOption.getD {} = tm
      from rfl]
    rw [hpri]
    rfl
  · rw [show (Except.ok tm : Except JmsErr TextMessage).toOption.getD {} = tm
      from rfl]
    rw [hcid]
    rfl
  · rw [show (Except.ok tm : Except JmsErr TextMessage).toOption.getD {} = tm
      from rfl]
    rw [hdst]
    rfl
  · rw [show (Except.ok tm : Except JmsErr TextMessage).toOption.getD {} = tm
      from rfl]
    rw [hexp]
    rfl


theorem C2_witness :
    get_jms_timestamp_from_md wEnv7 (pyStrip "20100101".data)
      (pyStrip "12000000".data) = some 0 ∧
    (containsXsiNil (pad_folder (serE (add_jms msgC2 "TEST.Q".data 0))) &&
      !containsXmlns (pad_folder (serE (add_jms msgC2 "TEST.Q".data 0)))) = false ∧
    (pad_folder (serE (add_jms msgC2 "TEST.Q".data 0))).length < 2147483648 ∧
    36 + ((emitted_folders true msgC2 "TEST.Q".data 0).map
      (fun f => 4 + f.length)).sum < 2147483648 ∧
    (build_text_message wEnv7 true (mdC2 "20100101".data "12000000".data)
        (wireC2 0) =
      Except.ok ((build_text_message wEnv7 true
        (mdC2 "20100101".data "12000000".data) (wireC2 0)).toOption.getD {}) ∧
    ((build_text_message wEnv7 true (mdC2 "20100101".data "12000000".data)
      (wireC2 0)).toOption.getD {}).jms_priority = some 5 ∧
    ((build_text_message wEnv7 true (mdC2 "20100101".data "12000000".data)
      (wireC2 0)).toOption.getD {}).jms_correlation_id = some "abc".data ∧
    ((build_text_message wEnv7 true (mdC2 "20100101".data "12000000".data)
      (wireC2 0)).toOption.getD {}).jms_destination = some "queue:///TEST.Q".data ∧
    ((build_text_message wEnv7 true (mdC2 "20100101".data "12000000".data)
      (wireC2 0)).toOption.getD {}).jms_expiration = some 0) :=
  ⟨by rfl, by decide, by decide, by decide,
   C2_send_scenario wEnv7 0 "20100101".data "12000000".data 0
     (by rfl) (by decide) (by decide) (by decide)⟩


/-- C1, amended: decoding the wire bytes produced by encoding a message
with user properties reproduces the jms folder's reserved fields —
destination (as queue:///name, stripped) and correlation id (when
truthy) — but NOT the message as a whole: the absolute expiration
`now + jms_expiration` that `add_jms` wrote is decoded back verbatim,
so a set (truthy) relative expiration comes back shifted by the send
clock, and the user properties are lost entirely (the decoder reads
`usr_folder.items()`, the XML attributes of the usr folder, while the
encoder wrote the properties as child elements, so the decoded message
carries no user properties).  An absent expiration decodes as 0. -/
theorem C1_round_trip (env : TimeEnv) (m : TextMessage) (q : Str)
    (now : Nat) (md : MD) (ts : Int) (usrE : XNode)
    (husr : add_usr m = some usrE)
    (hwfu : wfE usrE = true)
    (hxu : (containsXsiNil (pad_folder (serE usrE)) &&
      !containsXmlns (pad_folder (serE usrE))) = false)
    (hxj : (containsXsiNil (pad_folder (serE (add_jms m q now))) &&
      !containsXmlns (pad_folder (serE (add_jms m q now)))) = false)
    (hlj : (pad_folder (serE (add_jms m q now))).length < 2147483648)
    (hlu : (pad_folder (serE usrE)).length < 2147483648)
    (hT : 36 + ((emitted_folders true m q now).map (fun f => 4 + f.length)).sum
      < 2147483648)
    (hts : get_jms_timestamp_from_md env (pyStrip md.PutDate) (pyStrip md.PutTime)
      = some ts)
    (hpers : md.Persistence = 0 ∨ md.Persistence = 1 ∨ md.Persistence = 2) :
    build_text_message env true md (send_body true m q now) =
      Except.ok ((build_text_message env true md
        (send_body true m q now)).toOption.getD {}) ∧
    ((build_text_message env true md (send_body true m q now)).toOption.getD
      {}).jms_destination = some (pyStrip ("queue:///".data ++ q)) ∧
    ((build_text_message env true md (send_body true m q now)).toOption.getD
      {}).jms_expiration = some (if truthyOptInt m.jms_expiration
        then (now : Int) + m.jms_expiration.getD 0 else 0) ∧
    ((build_text_message env true md (send_body true m q now)).toOption.getD
      {}).jms_correlation_id = (if truthyOptStr m.jms_correlation_id
        then some (m.jms_correlation_id.getD []) else none) ∧
    ((build_text_message env true md (send_body true m q now)).toOption.getD
      {}).userProps = [] := by
  obtain ⟨tm, hmain, hdst, hexp, hcid, hup, hpri⟩ :=
    decode_of_encode_usr env m q now md ts usrE husr hwfu hxu hxj hlj hlu hT
      hts hpers
  rw [hmain]
  exact ⟨rfl, hdst, hexp, hcid, hup⟩

def msgC1 : TextMessage :=
  { jms_expiration := some 1000,
    userProps := [("Key".data, UVal.str "Val".data)] }

def usrC1 : XNode :=
  .elem "usr".data [] none
    (.cons (.elem "Key".data [] (some "Val".data) .nil) .nil)

set_option maxRecDepth 40000 in
/-- C1 counterexample to the claim as stated: the message with
jms_expiration = 1000 ms and the user property Key=Val, sent at
now = 995, decodes to jms_expiration = 1995 — not 1000 — and to an
empty user-property list — not [("Key","Val")]. -/
theorem C1_counterexample :
    ((build_text_message wEnv7 true wMd7
        (send_body true msgC1 "Q".data 995)).toOption.getD {}).jms_expiration
      = some 1995 ∧
    some (1995 : Int) ≠ msgC1.jms_expiration ∧
    ((build_text_message wEnv7 true wMd7
        (send_body true msgC1 "Q".data 995)).toOption.getD {}).userProps = [] ∧
    ([] : List (Str × UVal)) ≠ msgC1.userProps := by
  refine ⟨by rfl, by decide, by rfl, by decide⟩

set_option maxRecDepth 40000 in
theorem C1_witness :
    add_usr msgC1 = some usrC1 ∧
    wfE usrC1 = true ∧
    (containsXsiNil (pad_folder (serE usrC1)) &&
      !containsXmlns (pad_folder (serE usrC1))) = false ∧
    (containsXsiNil (pad_folder (serE (add_jms msgC1 "Q".data 995))) &&
      !containsXmlns (pad_folder (serE (add_jms msgC1 "Q".data 995)))) = false ∧
    (pad_folder (serE (add_jms msgC1 "Q".data 995))).length < 2147483648 ∧
    (pad_folder (serE usrC1)).length < 2147483648 ∧
    36 + ((emitted_folders true msgC1 "Q".data 995).map
      (fun f => 4 + f.length)).sum < 2147483648 ∧
    get_jms_timestamp_from_md wEnv7 (pyStrip wMd7.PutDate)
      (pyStrip wMd7.PutTime) = some 0 ∧
    (wMd7.Persistence = 0 ∨ wMd7.Persistence = 1 ∨ wMd7.Persistence = 2) ∧
    (build_text_message wEnv7 true wMd7 (send_body true msgC1 "Q".data 995) =
      Except.ok ((build_text_message wEnv7 true wMd7
        (send_body true msgC1 "Q".data 995)).toOption.getD {}) ∧
    ((build_text_message wEnv7 true wMd7
      (send_body true msgC1 "Q".data 995)).toOption.getD
      {}).jms_destination = some (pyStrip ("queue:///".data ++ "Q".data)) ∧
    ((build_text_message wEnv7 true wMd7
      (send_body true msgC1 "Q".data 995)).toOption.getD
      {}).jms_expiration = some (if truthyOptInt msgC1.jms_expiration
        then ((995 : Nat) : Int) + msgC1.jms_expiration.getD 0 else 0) ∧
    ((build_text_message wEnv7 true wMd7
      (send_body true msgC1 "Q".data 995)).toOption.getD
      {}).jms_correlation_id = (if truthyOptStr msgC1.jms_correlation_id
        then some (msgC1.jms_correlation_id.getD []) else none) ∧
    ((build_text_message wEnv7 true wMd7
      (send_body true msgC1 "Q".data 995)).toOption.getD {}).userProps = []) :=
  ⟨by rfl, by decide, by decide, by decide, by decide, by decide, by decide,
   by rfl, by decide,
   C1_round_trip wEnv7 msgC1 "Q".data 995 wMd7 0 usrC1
     (by rfl) (by decide) (by decide) (by decide) (by decide) (by decide)
     (by decide) (by rfl) (by decide)⟩

end SpringJms
